import Mathlib

/-!
Verification development for `process-photos.py` of bereal-gdpr-photo-toolkit.

The Python program is shallowly embedded here:
* A naive `datetime` value is represented by its position on the timeline as a
  count of seconds (`Int`), with the proleptic-Gregorian civil conversions
  (`daysFromCivil` / `civilFromDays`, the standard era-based algorithms, which
  agree with Python's `datetime` on its whole domain).  Comparison of naive
  datetimes (lexicographic on the civil fields) coincides with comparison of
  timeline positions, and `timedelta` addition is addition of seconds.
* Floating point coordinate arithmetic is idealized as exact rational
  arithmetic over `ℚ`; `int(...)` truncation toward zero is `pyInt`.
* A `pathlib.Path` is a directory name plus a stem and an extension
  (`FPath`); the filesystem is an association list from paths to file
  contents (`Fs`).  File contents are abstracted to what the program
  observes of them: raster images carry an opaque bitmap identity
  (`pixels`), a save-format tag and their embedded metadata fields; an
  undecodable file makes `PIL.Image.open` raise; videos carry an opaque
  content identity plus optional container tags.
* `piexif`/`iptcinfo3` format support is abstracted: the metadata writers
  succeed exactly on decodable raster images and are caught-and-logged
  no-ops otherwise, as in the source's `try/except` blocks.
* The external `ffmpeg` collaborator is a boolean oracle `Env.ffmpegOk`
  covering both its failure modes (non-zero exit, missing executable).
* Only `logging.error` calls relevant to the claims are modelled, as
  abstract `LogEvent`s.
-/

/-! ## Decimal rendering of naturals (Python `str` / zero padding) -/

/-- The decimal digit character for `n < 10`. -/
def digitChar10 (n : Nat) : Char := Char.ofNat (48 + n)

/-- Fuel-indexed digit expansion; `fuel > n` is always enough. -/
def natDecAux : Nat → Nat → List Char
  | 0, _ => []
  | fuel + 1, n =>
    if n < 10 then [digitChar10 n]
    else natDecAux fuel (n / 10) ++ [digitChar10 (n % 10)]

/-- Decimal rendering of a natural number, as Python's `str`. -/
def natDec (n : Nat) : String := String.mk (natDecAux (n + 1) n)

/-- Zero padding to width `w`, as in `strftime` field rendering. -/
def padZ (w : Nat) (n : Nat) : String :=
  String.mk (List.replicate (w - (natDec n).length) '0' ++ (natDec n).data)

/-! ## Proleptic Gregorian calendar (Python `datetime` semantics) -/

/-- Days since 1970-01-01 of the civil date `y-m-d` (era-based algorithm). -/
def daysFromCivil (y m d : Int) : Int :=
  let y1 : Int := if m ≤ 2 then y - 1 else y
  let era : Int := y1.fdiv 400
  let yoe : Int := y1 - era * 400
  let mp : Int := if m ≤ 2 then m + 9 else m - 3
  let doy : Int := (153 * mp + 2).fdiv 5 + d - 1
  let doe : Int := yoe * 365 + yoe.fdiv 4 - yoe.fdiv 100 + doy
  era * 146097 + doe - 719468

/-- Civil date `(y, m, d)` of a count of days since 1970-01-01. -/
def civilFromDays (z0 : Int) : Int × Int × Int :=
  let z : Int := z0 + 719468
  let era : Int := z.fdiv 146097
  let doe : Int := z - era * 146097
  let yoe : Int := (doe - doe.fdiv 1460 + doe.fdiv 36524 - doe.fdiv 146096).fdiv 365
  let y : Int := yoe + era * 400
  let doy : Int := doe - (365 * yoe + yoe.fdiv 4 - yoe.fdiv 100)
  let mp : Int := (5 * doy + 2).fdiv 153
  let d : Int := doy - (153 * mp + 2).fdiv 5 + 1
  let m : Int := if mp < 10 then mp + 3 else mp - 9
  (if m ≤ 2 then y + 1 else y, m, d)

/-- Python `datetime.weekday()`: Monday = 0, …, Sunday = 6.
1970-01-01 (day 0) was a Thursday (= 3). -/
def pyWeekday (day : Int) : Int := (day + 3) % 7

/-- The day-number part of a timeline instant (floor division). -/
def dayOf (t : Int) : Int := t.fdiv 86400

/-- The year field of the naive datetime at timeline instant `t`. -/
def pyYear (t : Int) : Int := (civilFromDays (dayOf t)).1

/-- Seconds elapsed since midnight at timeline instant `t`. -/
def secOfDay (t : Int) : Nat := (t - 86400 * dayOf t).toNat

/-- `strftime("%Y-%m-%dT%H-%M-%S")` of the naive datetime at instant `t`
(the filename timestamp of the source's main loop). -/
def fileTimeStr (t : Int) : String :=
  let c := civilFromDays (dayOf t)
  let s := secOfDay t
  padZ 4 c.1.toNat ++ "-" ++ padZ 2 c.2.1.toNat ++ "-" ++ padZ 2 c.2.2.toNat ++ "T" ++
    padZ 2 (s / 3600) ++ "-" ++ padZ 2 (s % 3600 / 60) ++ "-" ++ padZ 2 (s % 60)

/-- `strftime("%Y:%m:%d %H:%M:%S")` of the naive datetime at instant `t`
(the EXIF `DateTimeOriginal` rendering of `update_exif`). -/
def exifTimeStr (t : Int) : String :=
  let c := civilFromDays (dayOf t)
  let s := secOfDay t
  padZ 4 c.1.toNat ++ ":" ++ padZ 2 c.2.1.toNat ++ ":" ++ padZ 2 c.2.2.toNat ++ " " ++
    padZ 2 (s / 3600) ++ ":" ++ padZ 2 (s % 3600 / 60) ++ ":" ++ padZ 2 (s % 60)

/-- `strftime("%Y-%m-%dT%H:%M:%S") + "Z"` (the `creation_time` tag value of
`update_mp4_metadata`). -/
def isoZStr (t : Int) : String :=
  let c := civilFromDays (dayOf t)
  let s := secOfDay t
  padZ 4 c.1.toNat ++ "-" ++ padZ 2 c.2.1.toNat ++ "-" ++ padZ 2 c.2.2.toNat ++ "T" ++
    padZ 2 (s / 3600) ++ ":" ++ padZ 2 (s % 3600 / 60) ++ ":" ++ padZ 2 (s % 60) ++ "Z"

/-! ## `_utc_to_german_time` (rule-based branch, src lines 187-214)

The `ZoneInfo` branch of the source delegates to the external timezone
database; the algorithm belonging to this repository is the rule-based
fallback computation modelled here. -/

/-- The source's `while march_last.weekday() != 6: march_last -= timedelta(days=1)`
loop, stepping back one day until a Sunday is reached.  Any run of 7
consecutive days contains a Sunday, so fuel 7 always suffices. -/
def lastSundayFrom : Nat → Int → Int
  | 0, d => d
  | fuel + 1, d => if pyWeekday d = 6 then d else lastSundayFrom fuel (d - 1)

/-- Model of `_utc_to_german_time` (rule-based branch): convert a UTC instant
to German civil time by adding 2 hours inside the computed DST window and 1
hour outside it.  `replace(hour=h, minute=0, second=0, microsecond=0)` on a
midnight value is `day * 86400 + h * 3600`. -/
def utcToGermanTime (t : Int) : Int :=
  let year := pyYear t
  let marchLast := lastSundayFrom 7 (daysFromCivil year 3 31)
  let dstStart := marchLast * 86400 + 2 * 3600
  let octoberLast := lastSundayFrom 7 (daysFromCivil year 10 31)
  let dstEnd := octoberLast * 86400 + 1 * 3600
  if dstStart ≤ t ∧ t < dstEnd then t + 2 * 3600 else t + 1 * 3600

/-! ## `_convert_to_degrees` and the GPS reference characters -/

/-- Python `int(...)`: truncation toward zero. -/
def pyInt (q : ℚ) : Int := if 0 ≤ q then q.floor else -(-q).floor

/-- Model of `_convert_to_degrees`: decimal degrees to
`((deg, 1), (min, 1), (sec*100, 100))` rational DMS tuples. -/
def convertToDegrees (value : ℚ) : (Int × Int) × (Int × Int) × (Int × Int) :=
  let d := pyInt value
  let m := pyInt ((value - d) * 60)
  let s := (value - d - (m : ℚ) / 60) * 3600
  ((d, 1), (m, 1), (pyInt (s * 100), 100))

/-- The latitude hemisphere reference of `update_exif`'s GPS block:
`'N' if latitude >= 0 else 'S'`. -/
def latRef (latitude : ℚ) : Char := if 0 ≤ latitude then 'N' else 'S'

/-- The longitude hemisphere reference of `update_exif`'s GPS block:
`'E' if longitude >= 0 else 'W'`. -/
def lonRef (longitude : ℚ) : Char := if 0 ≤ longitude then 'E' else 'W'

/-- Reconstruction of a DMS triple as a decimal degree value, following the
claim's words: `d + m/60 + (s_num/100)/3600`.  (Spec-side definition used to
state the round-trip accuracy property.) -/
def specDmsRecon (dms : (Int × Int) × (Int × Int) × (Int × Int)) : ℚ :=
  (dms.1.1 : ℚ) + (dms.2.1.1 : ℚ) / 60 + ((dms.2.2.1 : ℚ) / 100) / 3600

/-- Python `str.lower()`, as a character-wise map. -/
def strLower (s : String) : String := String.mk (s.data.map Char.toLower)

/-! ## Paths and the filesystem -/

/-- A filesystem path: a directory, a stem and an extension (with its dot),
mirroring `pathlib`'s `parent`/`stem`/`suffix` decomposition used by the
source. -/
structure FPath where
  dir : String
  stem : String
  ext : String
deriving DecidableEq, Repr

/-- `str(path)` rendering (only used for readability). -/
def FPath.render (p : FPath) : String := p.dir ++ "/" ++ p.stem ++ p.ext

/-- Embedded photo metadata observable by the program: bitmap identity,
save format, EXIF fields and IPTC fields. -/
structure ImageData where
  pixels : Nat
  format : String
  dateTimeOriginal : Option String := none
  gpsLatRef : Option Char := none
  gpsLat : Option ((Int × Int) × (Int × Int) × (Int × Int)) := none
  gpsLonRef : Option Char := none
  gpsLon : Option ((Int × Int) × (Int × Int) × (Int × Int)) := none
  imageDescription : Option String := none
  iptcCaption : Option String := none
  iptcSource : Option String := none
  iptcProgram : Option String := none
deriving DecidableEq, Repr

/-- Container-level tags of an MP4 file. -/
structure VideoMeta where
  creationTime : String
  location : Option (ℚ × ℚ)
deriving DecidableEq, Repr

/-- Contents of a file as observed by the program. -/
inductive FileData where
  | image (im : ImageData)
  | badImage (id : Nat)
  | video (vid : Nat) (meta : Option VideoMeta)
deriving DecidableEq, Repr

/-- The filesystem: an association list from paths to contents. -/
def Fs := List (FPath × FileData)

instance : DecidableEq Fs := by unfold Fs; infer_instance

instance : Repr Fs := by unfold Fs; infer_instance

/-- Look up the contents at a path. -/
def fsGet : Fs → FPath → Option FileData
  | [], _ => none
  | (q, fd) :: rest, p => if q = p then some fd else fsGet rest p

/-- `os.path.exists` / `Path.exists`. -/
def fsExists (fs : Fs) (p : FPath) : Bool := (fsGet fs p).isSome

/-- Remove every binding of a path. -/
def fsErase : Fs → FPath → Fs
  | [], _ => []
  | (q, fd) :: rest, p => if q = p then fsErase rest p else (q, fd) :: fsErase rest p

/-- Write contents at a path, replacing what was there. -/
def fsWrite (fs : Fs) (p : FPath) (fd : FileData) : Fs := (p, fd) :: fsErase fs p

/-- `Path.rename`: move the contents of `a` to `b` (no-op when `a` is absent,
which never happens at the source's call sites). -/
def fsRename (fs : Fs) (a b : FPath) : Fs :=
  match fsGet fs a with
  | some fd => fsWrite (fsErase fs a) b fd
  | none => fs

/-! ## `get_unique_filename` (deduplication) -/

/-- The `k`-th collision candidate `with_name(f"{prefix}_{k}{suffix}")`. -/
def dedupCand (p : FPath) (k : Nat) : FPath :=
  { dir := p.dir, stem := p.stem ++ "_" ++ natDec k, ext := p.ext }

/-- The `while path.exists()` loop of `get_unique_filename`, trying counters
`k, k+1, …`.  The filesystem is finite, so `fs.length + 1` fuel always
reaches a free candidate. -/
def uniqFrom (fs : Fs) (p : FPath) : Nat → Nat → FPath
  | _, 0 => p
  | k, fuel + 1 =>
    let c := dedupCand p k
    if fsExists fs c then uniqFrom fs p (k + 1) fuel else c

/-- Model of `get_unique_filename`. -/
def get_unique_filename (fs : Fs) (p : FPath) : FPath :=
  if fsExists fs p then uniqFrom fs p 1 (fs.length + 1) else p

/-! ## Configuration, environment, manifest records -/

/-- The run's configuration (the source's `convert_to_jpeg`,
`keep_original_filename`, `create_combined_images` answers). -/
structure Config where
  convertToJpeg : Bool
  keepOriginalFilename : Bool
  createCombinedImages : Bool
deriving DecidableEq, Repr

/-- The process environment: whether an `ffmpeg` invocation succeeds.
`false` covers both a non-zero exit code and a missing executable. -/
structure Env where
  ffmpegOk : Bool
deriving DecidableEq, Repr

/-- An input file name (the basename extracted with `Path(...).name`). -/
structure SrcFile where
  stem : String
  ext : String
deriving DecidableEq, Repr

/-- A manifest record, with `takenAt` already parsed as a UTC instant
(the source parses `"%Y-%m-%dT%H:%M:%S.%fZ"` and attaches `timezone.utc`). -/
structure Entry where
  primary : SrcFile
  secondary : SrcFile
  takenAt : Int
  location : Option (ℚ × ℚ)
  caption : Option String
  btsMedia : Option SrcFile
deriving DecidableEq, Repr

/-- `data_folder = 'resources/data'`. -/
def dataDir : String := "resources/data"

/-- `photo_folder = data_folder + '/Photos/post/'`. -/
def photoDir : String := "resources/data/Photos/post"

/-- `bereal_folder = data_folder + '/Photos/bereal'`. -/
def berealDir : String := "resources/data/Photos/bereal"

/-- `output_folder = 'out/__processed'`. -/
def outputDir : String := "out/__processed"

/-- `output_folder_combined = 'out/__combined'`. -/
def combinedDir : String := "out/__combined"

/-- `photo_folder / filename`. -/
def photoFile (f : SrcFile) : FPath := { dir := photoDir, stem := f.stem, ext := f.ext }

/-- `bereal_folder / filename`. -/
def berealFile (f : SrcFile) : FPath := { dir := berealDir, stem := f.stem, ext := f.ext }

/-- `Path(data_folder) / filename` (BTS videos live in the data folder). -/
def dataFile (f : SrcFile) : FPath := { dir := dataDir, stem := f.stem, ext := f.ext }

/-- An element of the `primary_images` pending-combine list. -/
structure Artifact where
  path : FPath
  takenAt : Int
  location : Option (ℚ × ℚ)
  caption : Option String
deriving DecidableEq, Repr

/-- The `logging.error` events relevant to the claims. -/
inductive LogEvent where
  | convertError (p : FPath)
  | exifError (p : FPath)
  | iptcError (p : FPath)
  | mp4Error
  | copiedWithoutMetadata (p : FPath)
  | recordError
  | combinedConvertError (p : FPath)
deriving DecidableEq, Repr

/-- The whole mutable state of the run: the filesystem, the four counters,
the two pending-combine lists, the error log, and a ghost trace
`combinedMade` recording each combined-image save as
(timestamp used in its filename, bitmap identity saved). -/
structure RunState where
  fs : Fs
  processed : Nat
  convertedCount : Nat
  skipped : Nat
  combinedCount : Nat
  primaryImages : List Artifact
  secondaryImages : List FPath
  log : List LogEvent
  combinedMade : List (String × Nat)
deriving DecidableEq, Repr

/-! ## `convert_webp_to_jpg` -/

/-- The decodable raster contents at a path, if any (`PIL.Image.open`
succeeds exactly on these). -/
def openImage (fs : Fs) (p : FPath) : Option ImageData :=
  match fsGet fs p with
  | some (FileData.image im) => some im
  | _ => none

/-- Model of `convert_webp_to_jpg`: for a `.webp` path, decode and re-encode
as JPEG next to it (metadata is not carried over by
`img.convert('RGB').save(...)`); any decode/encode fault is caught and
surfaced as `none`.  Returns (filesystem, converted path or `none`, whether
a conversion happened, error events). -/
def convert_webp_to_jpg (fs : Fs) (p : FPath) :
    Fs × Option FPath × Bool × List LogEvent :=
  if strLower p.ext = ".webp" then
    let jpgPath : FPath := { p with ext := ".jpg" }
    match openImage fs p with
    | some im =>
      (fsWrite fs jpgPath (FileData.image { pixels := im.pixels, format := "JPEG" }),
        some jpgPath, true, [])
    | none => (fs, none, false, [LogEvent.convertError p])
  else (fs, some p, false, [])

/-! ## `update_exif`, `update_iptc`, `update_mp4_metadata` -/

/-- `source_app = "BeReal app"`. -/
def sourceApp : String := "BeReal app"

/-- `processing_tool = "github/bereal-gdpr-photo-toolkit"`. -/
def processingTool : String := "github/bereal-gdpr-photo-toolkit"

/-- The field updates `update_exif` performs on the embedded metadata of a
decodable image: `DateTimeOriginal` from the German-local rendering of the
UTC instant, the GPS block from `_convert_to_degrees` when a location is
present, `ImageDescription` from the caption when present. -/
def exifApply (im : ImageData) (takenAt : Int)
    (location : Option (ℚ × ℚ)) (caption : Option String) : ImageData :=
  let im1 := { im with dateTimeOriginal := some (exifTimeStr (utcToGermanTime takenAt)) }
  let im2 :=
    match location with
    | some loc =>
      { im1 with
        gpsLatRef := some (latRef loc.1)
        gpsLat := some (convertToDegrees |loc.1|)
        gpsLonRef := some (lonRef loc.2)
        gpsLon := some (convertToDegrees |loc.2|) }
    | none => im1
  match caption with
  | some c => { im2 with imageDescription := some c }
  | none => im2

/-- Model of `update_exif`.  Failures (missing or undecodable file) are
caught and logged. -/
def updateExif (fs : Fs) (p : FPath) (takenAt : Int)
    (location : Option (ℚ × ℚ)) (caption : Option String) : Fs × List LogEvent :=
  match fsGet fs p with
  | some (FileData.image im) =>
    (fsWrite fs p (FileData.image (exifApply im takenAt location caption)), [])
  | _ => (fs, [LogEvent.exifError p])

/-- The field updates `update_iptc` performs: the caption/abstract field
when a caption is present, and the two static provenance tags. -/
def iptcApply (im : ImageData) (caption : Option String) : ImageData :=
  let im1 :=
    match caption with
    | some c => { im with iptcCaption := some c }
    | none => im
  { im1 with iptcSource := some sourceApp, iptcProgram := some processingTool }

/-- Model of `update_iptc`.  Failures are caught and logged. -/
def updateIptc (fs : Fs) (p : FPath) (caption : Option String) : Fs × List LogEvent :=
  match fsGet fs p with
  | some (FileData.image im) =>
    (fsWrite fs p (FileData.image (iptcApply im caption)), [])
  | _ => (fs, [LogEvent.iptcError p])

/-- Model of `update_mp4_metadata`: invoke the `ffmpeg` collaborator in
stream-copy mode writing `creation_time` (and `location` when present) on
the way to `outPath`.  On collaborator failure — non-zero exit or missing
executable, both covered by `Env.ffmpegOk = false` — or on unreadable
input, log and return failure without trusting any output. -/
def update_mp4_metadata (env : Env) (fs : Fs) (inPath outPath : FPath)
    (takenAt : Int) (location : Option (ℚ × ℚ)) : Fs × Bool × List LogEvent :=
  if env.ffmpegOk then
    match fsGet fs inPath with
    | some (FileData.video v _) =>
      (fsWrite fs outPath
        (FileData.video v (some { creationTime := isoZStr takenAt, location := location })),
        true, [])
    | _ => (fs, false, [LogEvent.mp4Error])
  else (fs, false, [LogEvent.mp4Error])

/-! ## The batch orchestrator -/

/-- One iteration of the `for path, role in [...]` loop of the main pass
(src lines 466-520).  The returned boolean reports an uncaught exception
(only `shutil.copy2` on a missing source can raise here; the metadata
writers catch their own failures), to be handled by the record-level
`except`. -/
def processFile (cfg : Config) (takenAt : Int) (location : Option (ℚ × ℚ))
    (caption : Option String) (st : RunState) (path : FPath) (role : String) :
    RunState × Bool :=
  let timeStr := fileTimeStr takenAt
  let conv :=
    if cfg.convertToJpeg then convert_webp_to_jpg st.fs path
    else (st.fs, some path, false, [])
  match conv.2.1 with
  | none =>
    -- conversion failed: log already emitted by the converter, skip this file
    ({ st with fs := conv.1, skipped := st.skipped + 1, log := st.log ++ conv.2.2.2 }, false)
  | some convertedPath =>
    let st1 : RunState :=
      { st with
        fs := conv.1
        convertedCount := st.convertedCount + (if conv.2.2.1 then 1 else 0)
        log := st.log ++ conv.2.2.2 }
    let newPath0 : FPath :=
      if cfg.convertToJpeg then
        if cfg.keepOriginalFilename then
          { dir := outputDir, stem := timeStr ++ "_" ++ role ++ "_" ++ convertedPath.stem,
            ext := convertedPath.ext }
        else { dir := outputDir, stem := timeStr ++ "_" ++ role, ext := ".jpg" }
      else
        if cfg.keepOriginalFilename then
          { dir := outputDir, stem := timeStr ++ "_" ++ role ++ "_" ++ path.stem, ext := ".webp" }
        else { dir := outputDir, stem := timeStr ++ "_" ++ role, ext := ".webp" }
    let newPath := get_unique_filename st1.fs newPath0
    let matRes : Option Fs :=
      if cfg.convertToJpeg ∧ conv.2.2.1 then some (fsRename st1.fs convertedPath newPath)
      else
        match fsGet st1.fs path with
        | some fd => some (fsWrite st1.fs newPath fd)
        | none => none     -- shutil.copy2 raises FileNotFoundError
    match matRes with
    | none => (st1, true)
    | some fs2 =>
      let ex := updateExif fs2 newPath takenAt location caption
      let ip := updateIptc ex.1 newPath caption
      let st2 : RunState := { st1 with fs := ip.1, log := st1.log ++ ex.2 ++ ip.2 }
      let st3 : RunState :=
        if role = "primary" then
          { st2 with
            primaryImages := st2.primaryImages ++
              [{ path := newPath, takenAt := takenAt, location := location, caption := caption }] }
        else { st2 with secondaryImages := st2.secondaryImages ++ [newPath] }
      ({ st3 with processed := st3.processed + 1 }, false)

/-- The BTS-video block of the main pass (src lines 522-551): silently skip
unless the sidecar exists and is an `.mp4`; otherwise transcode-with-metadata
to a deduplicated name via a temporary file, falling back to a plain
metadata-less copy (still counted as processed) when the collaborator
fails. -/
def processBts (cfg : Config) (env : Env) (st : RunState) (e : Entry) : RunState :=
  match e.btsMedia with
  | none => st
  | some f =>
    let btsPath := dataFile f
    if fsExists st.fs btsPath ∧ strLower btsPath.ext = ".mp4" then
      let timeStr := fileTimeStr e.takenAt
      let newName0 : FPath :=
        if cfg.keepOriginalFilename then
          { dir := outputDir, stem := timeStr ++ "_bts_" ++ btsPath.stem, ext := ".mp4" }
        else { dir := outputDir, stem := timeStr ++ "_bts", ext := ".mp4" }
      let btsNewPath := get_unique_filename st.fs newName0
      let tempOutput : FPath := { btsNewPath with ext := ".tmp.mp4" }
      let r := update_mp4_metadata env st.fs btsPath tempOutput e.takenAt e.location
      if r.2.1 then
        { st with
          fs := fsRename r.1 tempOutput btsNewPath
          processed := st.processed + 1
          log := st.log ++ r.2.2 }
      else
        match fsGet r.1 btsPath with
        | some fd =>
          { st with
            fs := fsWrite r.1 btsNewPath fd
            processed := st.processed + 1
            log := st.log ++ r.2.2 ++ [LogEvent.copiedWithoutMetadata btsNewPath] }
        | none => st       -- unreachable: existence was checked above
    else st

/-- One manifest record of the main pass (the body of `for entry in data`,
src lines 446-553), including the record-level `except` that logs and moves
on.  The candidate-directory fallback keys on the primary's existence
only. -/
def processEntry (cfg : Config) (env : Env) (st : RunState) (e : Entry) : RunState :=
  let usePhoto := fsExists st.fs (photoFile e.primary)
  let pPath := if usePhoto then photoFile e.primary else berealFile e.primary
  let sPath := if usePhoto then photoFile e.secondary else berealFile e.secondary
  let r1 := processFile cfg e.takenAt e.location e.caption st pPath "primary"
  if r1.2 then { r1.1 with log := r1.1.log ++ [LogEvent.recordError] }
  else
    let r2 := processFile cfg e.takenAt e.location e.caption r1.1 sPath "secondary"
    if r2.2 then { r2.1 with log := r2.1.log ++ [LogEvent.recordError] }
    else processBts cfg env r2.1 e

/-- The whole main pass over the manifest. -/
def runEntries (cfg : Config) (env : Env) (st : RunState) (es : List Entry) : RunState :=
  es.foldl (processEntry cfg env) st

/-! ## The combine pass -/

/-- `stem.split('_')[0]`: the part of a stem before its first underscore. -/
def stemTs (s : String) : String := String.mk (s.data.takeWhile (fun c => c ≠ '_'))

/-- The fixed combined-artifact output path `{timestamp}_combined.webp` in
the combined output directory (src line 571-574; note: not routed through
`get_unique_filename`). -/
def combinedPathOf (timestamp : String) : FPath :=
  { dir := combinedDir, stem := timestamp ++ "_combined", ext := ".webp" }

/-- The bitmap produced by `combine_images_with_resizing` from the two input
bitmaps (opaque compositing). -/
def combinePixels (p s : Nat) : Nat := Nat.pair p s

/-- One iteration of the combine pass (src lines 560-596): composite the
pair, save as `'JPEG'` under the `.webp`-named combined path, write photo
metadata from the primary's record, and, when conversion is enabled, derive
a `.jpg` copy with its own metadata pass.  Returns `none` when either image
fails to open — `combine_images_with_resizing` has no handler, so the
exception is uncaught and the pass aborts. -/
def combineStep (cfg : Config) (st : RunState) (pr : Artifact × FPath) :
    Option RunState :=
  let art := pr.1
  let timestamp := stemTs art.path.stem
  match openImage st.fs art.path, openImage st.fs pr.2 with
  | some pIm, some sIm =>
    let combinedPath := combinedPathOf timestamp
    let combined : ImageData :=
      { pixels := combinePixels pIm.pixels sIm.pixels, format := "JPEG" }
    let fs1 := fsWrite st.fs combinedPath (FileData.image combined)
    let ex := updateExif fs1 combinedPath art.takenAt art.location art.caption
    let ip := updateIptc ex.1 combinedPath art.caption
    let st1 : RunState :=
      { st with
        fs := ip.1
        combinedCount := st.combinedCount + 1
        combinedMade := st.combinedMade ++ [(timestamp, combined.pixels)]
        log := st.log ++ ex.2 ++ ip.2 }
    if cfg.convertToJpeg then
      let conv := convert_webp_to_jpg st1.fs combinedPath
      match conv.2.1 with
      | some convertedPath =>
        let ex2 := updateExif conv.1 convertedPath art.takenAt art.location art.caption
        let ip2 := updateIptc ex2.1 convertedPath art.caption
        some { st1 with fs := ip2.1, log := st1.log ++ conv.2.2.2 ++ ex2.2 ++ ip2.2 }
      | none =>
        -- update_exif(None)/update_iptc(str(None)) both fail internally and log
        some
          { st1 with
            fs := conv.1
            log := st1.log ++ conv.2.2.2 ++
              [LogEvent.exifError combinedPath, LogEvent.iptcError combinedPath,
               LogEvent.combinedConvertError combinedPath] }
    else some st1
  | _, _ => none

/-- The combine pass: fold `combineStep` over the positional zip of the two
pending lists, aborting (second component `true`) on an uncaught compositor
exception. -/
def combineLoop (cfg : Config) (st : RunState) :
    List (Artifact × FPath) → RunState × Bool
  | [] => (st, false)
  | pr :: rest =>
    match combineStep cfg st pr with
    | some st1 => combineLoop cfg st1 rest
    | none => (st, true)

/-- The whole run: the main pass over the manifest followed, when enabled,
by the combine pass over `zip(primary_images, secondary_images)`. -/
def runAll (cfg : Config) (env : Env) (st : RunState) (es : List Entry) : RunState :=
  let st1 := runEntries cfg env st es
  if cfg.createCombinedImages then
    (combineLoop cfg st1 (st1.primaryImages.zip st1.secondaryImages)).1
  else st1

/-! ## Concrete scenario data -/

/-- A fresh run state over a given input filesystem. -/
def initState (fs : Fs) : RunState :=
  { fs := fs, processed := 0, convertedCount := 0, skipped := 0, combinedCount := 0,
    primaryImages := [], secondaryImages := [], log := [], combinedMade := [] }

/-- Conversion enabled, original names dropped, no combine pass. -/
def cfgConvertOnly : Config :=
  { convertToJpeg := true, keepOriginalFilename := false, createCombinedImages := false }

/-- Conversion enabled, original names dropped, combine pass enabled
(the source's default settings). -/
def cfgDefault : Config :=
  { convertToJpeg := true, keepOriginalFilename := false, createCombinedImages := true }

/-- The UTC instant 2024-07-15T12:00:00Z. -/
def parisInstant : Int := 86400 * daysFromCivil 2024 7 15 + 12 * 3600

/-- The single manifest record of the C1 scenario.  The coordinates are
the exact values of the IEEE doubles that `json.load` produces for the
literals `48.8566` and `2.3522` (the program computes on these, not on the
nominal decimals; the longitude double lies strictly below `2.3522`). -/
def parisEntry : Entry :=
  { primary := { stem := "prim-uuid", ext := ".webp" }
    secondary := { stem := "sec-uuid", ext := ".webp" }
    takenAt := parisInstant
    location := some (3437977586790459/70368744177664, 662085440218805/281474976710656)
    caption := some "Paris"
    btsMedia := none }

/-- The C1 scenario input filesystem: both images present and decodable. -/
def parisFs : Fs :=
  [(photoFile parisEntry.primary, FileData.image { pixels := 0, format := "WEBP" }),
   (photoFile parisEntry.secondary, FileData.image { pixels := 1, format := "WEBP" })]

/-- The C1 scenario run. -/
def parisRun : RunState := runAll cfgConvertOnly { ffmpegOk := true } (initState parisFs) [parisEntry]


/-- Spec-side characterization (for C2): `d` is the last Sunday of month
`mo` (March or October, 31 days) of year `y`: a Sunday, within the month,
and no later Sunday lies at or before the month's end. -/
def IsLastSundayOfMonth (y mo d : Int) : Prop :=
  pyWeekday d = 6 ∧ daysFromCivil y mo 1 ≤ d ∧ d ≤ daysFromCivil y mo 31 ∧
  ∀ e : Int, pyWeekday e = 6 → e ≤ daysFromCivil y mo 31 → e ≤ d

/-- Distance (in days) walking backwards from `d` to the nearest Sunday. -/
def sundayGap (d : Int) : Int := if pyWeekday d = 6 then 0 else pyWeekday d + 1


/-- Value of a decimal digit string (proof-side helper). -/
def decVal (l : List Char) : Nat := l.foldl (fun a c => 10 * a + (c.toNat - 48)) 0

/-- A two-file output directory exhibiting a dedup collision chain. -/
def dedupFs : Fs :=
  [({ dir := outputDir, stem := "a", ext := ".jpg" }, FileData.image { pixels := 7, format := "JPEG" }),
   ({ dir := outputDir, stem := "a_1", ext := ".jpg" }, FileData.image { pixels := 8, format := "JPEG" })]

/-- The colliding candidate path. -/
def dedupP : FPath := { dir := outputDir, stem := "a", ext := ".jpg" }


/-- The final embedded metadata of a freshly converted image after both
metadata passes. -/
def metaApply (pix : Nat) (t : Int) (loc : Option (ℚ × ℚ)) (cap : Option String) : ImageData :=
  iptcApply (exifApply { pixels := pix, format := "JPEG" } t loc cap) cap

/-- The state after one successful convert-and-rename iteration of the main
loop on a decodable `.webp` file (helper for stating `processFile_good`). -/
def procGood (cfg : Config) (st : RunState) (p : FPath) (role : String)
    (t : Int) (loc : Option (ℚ × ℚ)) (cap : Option String) (im : ImageData) : RunState :=
  let jpgPath : FPath := { p with ext := ".jpg" }
  let cimg : ImageData := { pixels := im.pixels, format := "JPEG" }
  let fs1 := fsWrite st.fs jpgPath (FileData.image cimg)
  let cand : FPath :=
    if cfg.keepOriginalFilename then
      { dir := outputDir, stem := fileTimeStr t ++ "_" ++ role ++ "_" ++ p.stem, ext := ".jpg" }
    else { dir := outputDir, stem := fileTimeStr t ++ "_" ++ role, ext := ".jpg" }
  let np := get_unique_filename fs1 cand
  { st with
    fs := fsWrite (fsWrite (fsRename fs1 jpgPath np) np
            (FileData.image (exifApply cimg t loc cap)))
          np (FileData.image (metaApply im.pixels t loc cap))
    convertedCount := st.convertedCount + 1
    processed := st.processed + 1
    primaryImages := st.primaryImages ++
      (if role = "primary" then [{ path := np, takenAt := t, location := loc, caption := cap }] else [])
    secondaryImages := st.secondaryImages ++ (if role = "primary" then [] else [np])
    log := st.log }


/-- Pre-dedup output name of a BTS video (helper for stating C6). -/
def btsCand (cfg : Config) (e : Entry) (f : SrcFile) : FPath :=
  if cfg.keepOriginalFilename then
    { dir := outputDir, stem := fileTimeStr e.takenAt ++ "_bts_" ++ f.stem, ext := ".mp4" }
  else { dir := outputDir, stem := fileTimeStr e.takenAt ++ "_bts", ext := ".mp4" }

/-- A corrupt (undecodable) input file. -/
def c5File : FPath := photoFile { stem := "corrupt", ext := ".webp" }

/-- A filesystem holding only the corrupt file. -/
def c5Fs : Fs := [(c5File, FileData.badImage 3)]

/-- Fresh state over the corrupt-file filesystem. -/
def c5St : RunState := initState c5Fs

/-- A record with a BTS video sidecar. -/
def c6Entry : Entry :=
  { primary := { stem := "p6", ext := ".webp" }
    secondary := { stem := "s6", ext := ".webp" }
    takenAt := parisInstant
    location := none
    caption := none
    btsMedia := some { stem := "vid", ext := ".mp4" } }

/-- A filesystem holding the BTS video. -/
def c6Fs : Fs := [(dataFile { stem := "vid", ext := ".mp4" }, FileData.video 9 none)]

/-- Fresh state over the BTS filesystem. -/
def c6St : RunState := initState c6Fs

/-- A record whose secondary image is missing on disk. -/
def c4Entry : Entry :=
  { primary := { stem := "p4", ext := ".webp" }
    secondary := { stem := "s4", ext := ".webp" }
    takenAt := parisInstant
    location := none
    caption := none
    btsMedia := none }

/-- A filesystem holding only the record's primary image. -/
def c4Fs : Fs := [(photoFile c4Entry.primary, FileData.image { pixels := 4, format := "WEBP" })]

/-- Fresh state over the missing-secondary filesystem. -/
def c4St : RunState := initState c4Fs


/-- The state after one successful combine-pass iteration (helper for
stating `combineStep_good`). -/
def combGood (cfg : Config) (st : RunState) (art : Artifact) (sPath : FPath)
    (pIm sIm : ImageData) : RunState :=
  let timestamp := stemTs art.path.stem
  let combinedPath := combinedPathOf timestamp
  let pix := combinePixels pIm.pixels sIm.pixels
  let combMeta := metaApply pix art.takenAt art.location art.caption
  let fs2 := fsWrite (fsWrite (fsWrite st.fs combinedPath
      (FileData.image { pixels := pix, format := "JPEG" })) combinedPath
      (FileData.image (exifApply { pixels := pix, format := "JPEG" }
        art.takenAt art.location art.caption))) combinedPath
      (FileData.image combMeta)
  let st1 : RunState :=
    { st with
      fs := fs2
      combinedCount := st.combinedCount + 1
      combinedMade := st.combinedMade ++ [(timestamp, pix)]
      log := st.log }
  if cfg.convertToJpeg then
    let jpgPath : FPath := { combinedPath with ext := ".jpg" }
    { st1 with
      fs := fsWrite (fsWrite (fsWrite st1.fs jpgPath
          (FileData.image { pixels := pix, format := "JPEG" })) jpgPath
          (FileData.image (exifApply { pixels := pix, format := "JPEG" }
            art.takenAt art.location art.caption))) jpgPath
          (FileData.image combMeta) }
  else st1


/-- A recorded primary artifact for the combine-pass witnesses. -/
def c10Art : Artifact :=
  { path := { dir := outputDir, stem := "2024-07-15T12-00-00_primary", ext := ".jpg" }
    takenAt := parisInstant, location := none, caption := none }

/-- The matching secondary path for the combine-pass witnesses. -/
def c10S : FPath := { dir := outputDir, stem := "2024-07-15T12-00-00_secondary", ext := ".jpg" }

/-- Output images on disk for the combine-pass witnesses. -/
def c10Fs : Fs :=
  [(c10Art.path, FileData.image { pixels := 21, format := "JPEG" }),
   (c10S, FileData.image { pixels := 22, format := "JPEG" })]

/-- Fresh state over the combine-pass witness filesystem. -/
def c10St : RunState := initState c10Fs

/-- First recorded primary of the overwrite witness (timestamp stem T). -/
def c9A1 : Artifact :=
  { path := { dir := outputDir, stem := "T_primary", ext := ".jpg" }
    takenAt := 0, location := none, caption := none }

/-- First recorded secondary of the overwrite witness. -/
def c9S1 : FPath := { dir := outputDir, stem := "T_secondary", ext := ".jpg" }

/-- Second recorded primary of the overwrite witness (deduplicated stem,
same timestamp part T). -/
def c9A2 : Artifact :=
  { path := { dir := outputDir, stem := "T_primary_1", ext := ".jpg" }
    takenAt := 0, location := none, caption := none }

/-- Second recorded secondary of the overwrite witness. -/
def c9S2 : FPath := { dir := outputDir, stem := "T_secondary_1", ext := ".jpg" }

/-- Output images on disk for the overwrite witness. -/
def c9Fs : Fs :=
  [(c9A1.path, FileData.image { pixels := 31, format := "JPEG" }),
   (c9S1, FileData.image { pixels := 32, format := "JPEG" }),
   (c9A2.path, FileData.image { pixels := 33, format := "JPEG" }),
   (c9S2, FileData.image { pixels := 34, format := "JPEG" })]

/-- Fresh state over the overwrite witness filesystem. -/
def c9St : RunState := initState c9Fs


/-- The bitmap identity stored at a path (0 when absent or not an image). -/
def pixAt (fs : Fs) (p : FPath) : Nat :=
  match fsGet fs p with
  | some (FileData.image im) => im.pixels
  | _ => 0

/-- A manifest record whose two image files are present and decodable
`.webp` files in the photo folder (the precondition under which no file of
the record is skipped). -/
def GoodEntry (fs : Fs) (e : Entry) : Prop :=
  e.primary.ext = ".webp" ∧ e.secondary.ext = ".webp" ∧
  (∃ im : ImageData, fsGet fs (photoFile e.primary) = some (FileData.image im)) ∧
  (∃ im : ImageData, fsGet fs (photoFile e.secondary) = some (FileData.image im))


/-- The deduplicated output path chosen by a successful per-file iteration
(helper mirroring the corresponding lets of `procGood`). -/
def procGoodPath (cfg : Config) (st : RunState) (p : FPath) (role : String)
    (t : Int) (im : ImageData) : FPath :=
  let jpgPath : FPath := { p with ext := ".jpg" }
  let fs1 := fsWrite st.fs jpgPath (FileData.image { pixels := im.pixels, format := "JPEG" })
  let cand : FPath :=
    if cfg.keepOriginalFilename then
      { dir := outputDir, stem := fileTimeStr t ++ "_" ++ role ++ "_" ++ p.stem, ext := ".jpg" }
    else { dir := outputDir, stem := fileTimeStr t ++ "_" ++ role, ext := ".jpg" }
  get_unique_filename fs1 cand

/-- The second capture instant of the C8 scenario: one day after
`parisInstant`, so the two records' filename timestamps differ. -/
def c8t2 : Int := parisInstant + 86400

/-- C8 record 1: its primary file will fail to decode. -/
def c8e1 : Entry :=
  { primary := { stem := "a1", ext := ".webp" }
    secondary := { stem := "a2", ext := ".webp" }
    takenAt := parisInstant
    location := none
    caption := none
    btsMedia := none }

/-- C8 record 2: both files good. -/
def c8e2 : Entry :=
  { primary := { stem := "b1", ext := ".webp" }
    secondary := { stem := "b2", ext := ".webp" }
    takenAt := c8t2
    location := none
    caption := none
    btsMedia := none }

/-- The C8 input filesystem: record 1's primary image is present but
undecodable (bitmaps 3, 5, 7 tag the three decodable files). -/
def c8Fs : Fs :=
  [(photoFile c8e1.primary, FileData.badImage 0),
   (photoFile c8e1.secondary, FileData.image { pixels := 3, format := "WEBP" }),
   (photoFile c8e2.primary, FileData.image { pixels := 5, format := "WEBP" }),
   (photoFile c8e2.secondary, FileData.image { pixels := 7, format := "WEBP" })]

/-- The C8 scenario run under the source's default settings (conversion and
combining enabled). -/
def c8Run : RunState := runAll cfgDefault { ffmpegOk := true } (initState c8Fs) [c8e1, c8e2]

/-- The C8 scenario's state at the end of the main pass, before the combine
pass. -/
def c8Main : RunState := runEntries cfgDefault { ffmpegOk := true } (initState c8Fs) [c8e1, c8e2]

/-! # Theorems -/

unseal Rat.add Rat.mul Rat.inv Rat.sub Rat.ofScientific in
/-- C1, counterexample: in the scenario run (one record, `takenAt`
2024-07-15T12:00:00Z, location (48.8566, 2.3522), caption "Paris",
conversion enabled, keep-original-name disabled) no output file named with
the CEST-rendered timestamp `2024-07-15T14-00-00` exists: the filename
timestamp is rendered from the UTC value of `taken_at`, not from the
German-local conversion (which is applied only to the EXIF field). -/
theorem c1_counterexample :
    fsExists parisRun.fs
      { dir := outputDir, stem := "2024-07-15T14-00-00_primary", ext := ".jpg" } = false ∧
    fsExists parisRun.fs
      { dir := outputDir, stem := "2024-07-15T14-00-00_secondary", ext := ".jpg" } = false := by
  decide

unseal Rat.add Rat.mul Rat.inv Rat.sub Rat.ofScientific in
/-- C1, amended: the scenario run produces output files named
`2024-07-15T12-00-00_primary.jpg` and `2024-07-15T12-00-00_secondary.jpg`
(timestamp rendered in UTC), each carrying embedded EXIF capture time
"2024:07:15 14:00:00" (CEST, UTC+2), GPS coordinates N 48°51'23.76" and
E 2°21'07.91" in rational DMS form (the seconds count comes from the parsed
IEEE double of `2.3522`, which lies just below the nominal decimal, so
`int(s*100)` truncates to 791), and an image description / IPTC caption
of "Paris". -/
theorem c1_amended :
    fsGet parisRun.fs
        { dir := outputDir, stem := "2024-07-15T12-00-00_primary", ext := ".jpg" } =
      some (FileData.image
        { pixels := 0, format := "JPEG"
          dateTimeOriginal := some "2024:07:15 14:00:00"
          gpsLatRef := some 'N', gpsLat := some ((48, 1), (51, 1), (2376, 100))
          gpsLonRef := some 'E', gpsLon := some ((2, 1), (21, 1), (791, 100))
          imageDescription := some "Paris", iptcCaption := some "Paris"
          iptcSource := some sourceApp, iptcProgram := some processingTool }) ∧
    fsGet parisRun.fs
        { dir := outputDir, stem := "2024-07-15T12-00-00_secondary", ext := ".jpg" } =
      some (FileData.image
        { pixels := 1, format := "JPEG"
          dateTimeOriginal := some "2024:07:15 14:00:00"
          gpsLatRef := some 'N', gpsLat := some ((48, 1), (51, 1), (2376, 100))
          gpsLonRef := some 'E', gpsLon := some ((2, 1), (21, 1), (791, 100))
          imageDescription := some "Paris", iptcCaption := some "Paris"
          iptcSource := some sourceApp, iptcProgram := some processingTool }) := by
  decide

/-! ## C3: rational DMS encoding accuracy -/

/-- `Rat.floor` agrees with the floor of the `FloorRing` structure. -/
theorem ratFloor_eq_floor (q : ℚ) : q.floor = ⌊q⌋ :=
  le_antisymm (Int.le_floor.mpr (Rat.le_floor.mp le_rfl)) (Rat.le_floor.mpr (Int.floor_le q))

/-- On nonnegative arguments, Python truncation is the floor. -/
theorem pyInt_eq_floor {q : ℚ} (h : 0 ≤ q) : pyInt q = ⌊q⌋ := by
  unfold pyInt
  rw [if_pos h, ratFloor_eq_floor]

/-- The DMS encoding of a nonnegative value reconstructs to within
`1/360000` of the value. -/
theorem dms_recon_close (v : ℚ) (hv : 0 ≤ v) :
    abs (specDmsRecon (convertToDegrees v) - v) ≤ 1 / 360000 := by
  have hfloor := Int.floor_le v
  have hvd : (0 : ℚ) ≤ v - ⌊v⌋ := by linarith
  have hm60 : (0 : ℚ) ≤ (v - ⌊v⌋) * 60 := by linarith
  have hmle := Int.floor_le ((v - (⌊v⌋ : ℚ)) * 60)
  have hs0 : (0 : ℚ) ≤ (v - ⌊v⌋ - (⌊(v - (⌊v⌋ : ℚ)) * 60⌋ : ℚ) / 60) * 3600 := by
    have : (⌊(v - (⌊v⌋ : ℚ)) * 60⌋ : ℚ) / 60 ≤ v - ⌊v⌋ := by linarith
    linarith
  have hs100 : (0 : ℚ) ≤ (v - ⌊v⌋ - (⌊(v - (⌊v⌋ : ℚ)) * 60⌋ : ℚ) / 60) * 3600 * 100 := by
    linarith
  unfold convertToDegrees specDmsRecon
  simp only [pyInt_eq_floor hv, pyInt_eq_floor hm60, pyInt_eq_floor hs100]
  have h1 := Int.floor_le ((v - (⌊v⌋ : ℚ) - (⌊(v - (⌊v⌋ : ℚ)) * 60⌋ : ℚ) / 60) * 3600 * 100)
  have h2 := Int.lt_floor_add_one
    ((v - (⌊v⌋ : ℚ) - (⌊(v - (⌊v⌋ : ℚ)) * 60⌋ : ℚ) / 60) * 3600 * 100)
  rw [abs_le]
  constructor <;> nlinarith [h1, h2]

/-- C3: for coordinates within range, the rational DMS encoding of the
magnitude — integer degrees (d,1), integer minutes (m,1), seconds
(int(s*100),100) — reconstructs via d + m/60 + (s_num/100)/3600 to within
1/360000 degree of the magnitude, and the hemisphere reference is N (E)
for nonnegative latitude (longitude) and S (W) for negative. -/
theorem c3_dms_roundtrip (lat lon : ℚ) (h1 : |lat| ≤ 90) (h2 : |lon| ≤ 180) :
    abs (specDmsRecon (convertToDegrees |lat|) - |lat|) ≤ 1 / 360000 ∧
    abs (specDmsRecon (convertToDegrees |lon|) - |lon|) ≤ 1 / 360000 ∧
    latRef lat = (if 0 ≤ lat then 'N' else 'S') ∧
    lonRef lon = (if 0 ≤ lon then 'E' else 'W') :=
  ⟨dms_recon_close _ (abs_nonneg lat), dms_recon_close _ (abs_nonneg lon), rfl, rfl⟩

/-- Witness for C3 at the concrete coordinates (48.8566, 2.3522). -/
theorem c3_witness :
    |(488566 / 10000 : ℚ)| ≤ 90 ∧ |(23522 / 10000 : ℚ)| ≤ 180 ∧
    (abs (specDmsRecon (convertToDegrees |(488566 / 10000 : ℚ)|) - |(488566 / 10000 : ℚ)|) ≤
        1 / 360000 ∧
      abs (specDmsRecon (convertToDegrees |(23522 / 10000 : ℚ)|) - |(23522 / 10000 : ℚ)|) ≤
        1 / 360000 ∧
      latRef (488566 / 10000) = (if (0 : ℚ) ≤ 488566 / 10000 then 'N' else 'S') ∧
      lonRef (23522 / 10000) = (if (0 : ℚ) ≤ 23522 / 10000 then 'E' else 'W')) :=
  ⟨by rw [abs_le]; norm_num, by rw [abs_le]; norm_num,
    c3_dms_roundtrip _ _ (by rw [abs_le]; norm_num) (by rw [abs_le]; norm_num)⟩

/-! ## C2: the timezone normalizer and its DST window -/

/-- The gap is between 0 and 6 days. -/
theorem sundayGap_bounds (d : Int) : 0 ≤ sundayGap d ∧ sundayGap d ≤ 6 := by
  simp only [sundayGap, pyWeekday]
  split_ifs <;> omega

/-- Walking back by the gap lands on a Sunday. -/
theorem weekday_sub_sundayGap (d : Int) : pyWeekday (d - sundayGap d) = 6 := by
  simp only [sundayGap, pyWeekday]
  generalize hG : (d + 3) % 7 = w
  split_ifs with h
  · omega
  · omega

/-- The backwards Sunday search runs `sundayGap` steps when it has enough
fuel. -/
theorem lastSundayFrom_spec :
    ∀ (n : Nat) (d : Int), sundayGap d ≤ n → lastSundayFrom n d = d - sundayGap d := by
  intro n
  induction n with
  | zero =>
    intro d h
    have hb := sundayGap_bounds d
    have h0 : sundayGap d = 0 := by omega
    simp only [lastSundayFrom]
    omega
  | succ n ih =>
    intro d h
    by_cases hw : pyWeekday d = 6
    · have h0 : sundayGap d = 0 := by simp [sundayGap, hw]
      simp [lastSundayFrom, hw, h0]
    · have key : sundayGap d = sundayGap (d - 1) + 1 := by
        simp only [sundayGap, pyWeekday] at hw ⊢
        split_ifs <;> omega
      have hle : sundayGap (d - 1) ≤ n := by omega
      have ih1 := ih (d - 1) hle
      simp only [lastSundayFrom, if_neg hw]
      omega

/-- The last day of March is 30 days after its first. -/
theorem marchSpan (y : Int) : daysFromCivil y 3 31 = daysFromCivil y 3 1 + 30 := by
  unfold daysFromCivil; norm_num; ring

/-- The last day of October is 30 days after its first. -/
theorem octoberSpan (y : Int) : daysFromCivil y 10 31 = daysFromCivil y 10 1 + 30 := by
  unfold daysFromCivil; norm_num; ring

/-- The source's backwards loop from the 31st finds the month's last
Sunday. -/
theorem lastSundayFrom_isLastSunday (y mo : Int)
    (hspan : daysFromCivil y mo 31 = daysFromCivil y mo 1 + 30) :
    IsLastSundayOfMonth y mo (lastSundayFrom 7 (daysFromCivil y mo 31)) := by
  set m31 := daysFromCivil y mo 31 with hm
  have hgap := sundayGap_bounds m31
  have h6 := weekday_sub_sundayGap m31
  have heq : lastSundayFrom 7 m31 = m31 - sundayGap m31 :=
    lastSundayFrom_spec 7 m31 (by omega)
  rw [IsLastSundayOfMonth, heq]
  generalize hg : sundayGap m31 = g at hgap h6 ⊢
  refine ⟨h6, by omega, by omega, ?_⟩
  intro e he hle
  simp only [pyWeekday] at he h6
  omega

/-- C2: for every UTC instant t, the timezone normalizer (the repository's
rule-based computation; the ZoneInfo branch delegates to the external tz
database) returns a civil time exactly 1 hour ahead of UTC outside the DST
window and exactly 2 hours ahead inside it, where the window of the year of
t runs from 02:00 UTC on the last Sunday of March (inclusive) to 01:00 UTC
on the last Sunday of October (exclusive). -/
theorem c2_dst_window (t : Int) :
    ∃ dS dE : Int,
      IsLastSundayOfMonth (pyYear t) 3 dS ∧
      IsLastSundayOfMonth (pyYear t) 10 dE ∧
      utcToGermanTime t =
        (if dS * 86400 + 2 * 3600 ≤ t ∧ t < dE * 86400 + 1 * 3600 then t + 2 * 3600
         else t + 1 * 3600) := by
  refine ⟨lastSundayFrom 7 (daysFromCivil (pyYear t) 3 31),
    lastSundayFrom 7 (daysFromCivil (pyYear t) 10 31),
    lastSundayFrom_isLastSunday _ _ (marchSpan _),
    lastSundayFrom_isLastSunday _ _ (octoberSpan _), rfl⟩

/-! ## C7: the filename deduplicator -/

/-- The digit characters have the expected code points. -/
theorem digitChar10_toNat (k : Nat) (hk : k < 10) : (digitChar10 k).toNat = 48 + k := by
  interval_cases k <;> decide

/-- Appending one digit multiplies the value by ten and adds it. -/
theorem decVal_append (xs : List Char) (c : Char) :
    decVal (xs ++ [c]) = 10 * decVal xs + (c.toNat - 48) := by
  unfold decVal
  rw [List.foldl_append]
  rfl

/-- The digit expansion evaluates back to the number. -/
theorem decVal_natDecAux : ∀ (fuel n : Nat), n < fuel → decVal (natDecAux fuel n) = n := by
  intro fuel
  induction fuel with
  | zero => intro n h; omega
  | succ fuel ih =>
    intro n h
    by_cases h10 : n < 10
    · simp only [natDecAux, if_pos h10]
      show decVal ([] ++ [digitChar10 n]) = n
      rw [decVal_append, digitChar10_toNat n h10]
      simp [decVal]
    · simp only [natDecAux, if_neg h10]
      rw [decVal_append, ih (n / 10) (by omega), digitChar10_toNat (n % 10) (by omega)]
      omega

/-- Decimal rendering is injective. -/
theorem natDec_inj : Function.Injective natDec := by
  intro m n h
  unfold natDec at h
  have hdata : natDecAux (m + 1) m = natDecAux (n + 1) n := congrArg String.data h
  have hm := decVal_natDecAux (m + 1) m (Nat.lt_succ_self m)
  have hn := decVal_natDecAux (n + 1) n (Nat.lt_succ_self n)
  rw [hdata, hn] at hm
  omega

/-- Distinct counters give distinct collision candidates. -/
theorem dedupCand_inj (p : FPath) : Function.Injective (dedupCand p) := by
  intro j k h
  unfold dedupCand at h
  have hstem : p.stem ++ "_" ++ natDec j = p.stem ++ "_" ++ natDec k :=
    congrArg FPath.stem h
  have hdat := congrArg String.data hstem
  simp only [String.data_append] at hdat
  have hd : (natDec j).data = (natDec k).data := by
    have := List.append_cancel_left hdat
    exact this
  apply natDec_inj
  unfold natDec at hd ⊢
  exact congrArg String.mk hd

/-- An existing path is among the filesystem's keys. -/
theorem fsExists_mem (fs : Fs) (q : FPath) (h : fsExists fs q = true) :
    q ∈ fs.map Prod.fst := by
  induction fs with
  | nil => simp [fsExists, fsGet] at h
  | cons x rest ih =>
    simp only [fsExists, fsGet] at h
    by_cases hx : x.1 = q
    · simp [hx]
    · rw [if_neg hx] at h
      simp only [List.map_cons, List.mem_cons]
      exact Or.inr (ih h)

/-- Pigeonhole: any window of `fs.length + 1` successive candidates
contains a free one. -/
theorem exists_free_in_window (fs : Fs) (p : FPath) (k : Nat) :
    ∃ j, k ≤ j ∧ j < k + (fs.length + 1) ∧ fsExists fs (dedupCand p j) = false := by
  by_contra hcon
  push_neg at hcon
  have hall : ∀ i, i < fs.length + 1 → fsExists fs (dedupCand p (k + i)) = true := by
    intro i hi
    have := hcon (k + i) (Nat.le_add_right k i) (by omega)
    exact Bool.of_not_eq_false this
  have hsub : (Finset.range (fs.length + 1)).image (fun i => dedupCand p (k + i)) ⊆
      (fs.map Prod.fst).toFinset := by
    intro q hq
    simp only [Finset.mem_image, Finset.mem_range] at hq
    obtain ⟨i, hi, rfl⟩ := hq
    rw [List.mem_toFinset]
    exact fsExists_mem fs _ (hall i hi)
  have hcard := Finset.card_le_card hsub
  have hinj : Function.Injective (fun i : Nat => dedupCand p (k + i)) := by
    intro a b hab
    have := dedupCand_inj p hab
    omega
  rw [Finset.card_image_of_injective _ hinj, Finset.card_range] at hcard
  have := List.toFinset_card_le (fs.map Prod.fst)
  rw [List.length_map] at this
  omega

/-- The dedup loop finds the first free candidate at or after its starting
counter, provided one lies within its fuel window. -/
theorem uniqFrom_spec (fs : Fs) (p : FPath) :
    ∀ (fuel k : Nat),
      (∃ j, k ≤ j ∧ j < k + fuel ∧ fsExists fs (dedupCand p j) = false) →
      ∃ j, k ≤ j ∧ uniqFrom fs p k fuel = dedupCand p j ∧
        fsExists fs (dedupCand p j) = false ∧
        ∀ i, k ≤ i → i < j → fsExists fs (dedupCand p i) = true := by
  intro fuel
  induction fuel with
  | zero =>
    intro k h
    obtain ⟨j, h1, h2, _⟩ := h
    omega
  | succ fuel ih =>
    intro k h
    obtain ⟨j, hj1, hj2, hj3⟩ := h
    by_cases hk : fsExists fs (dedupCand p k) = true
    · have hjk : j ≠ k := by
        intro he; rw [he] at hj3; rw [hj3] at hk; exact Bool.noConfusion hk
      have hwin : ∃ j, k + 1 ≤ j ∧ j < (k + 1) + fuel ∧
          fsExists fs (dedupCand p j) = false := ⟨j, by omega, by omega, hj3⟩
      obtain ⟨j2, h1, h2, h3, h4⟩ := ih (k + 1) hwin
      refine ⟨j2, by omega, ?_, h3, ?_⟩
      · show uniqFrom fs p k (fuel + 1) = dedupCand p j2
        simp only [uniqFrom, hk, if_true]
        exact h2
      · intro i hi1 hi2
        rcases Nat.eq_or_lt_of_le hi1 with he | hlt
        · rw [← he]; exact hk
        · exact h4 i hlt hi2
    · refine ⟨k, le_rfl, ?_, Bool.of_not_eq_true hk, fun i h1 h2 => absurd h2 (by omega)⟩
      show uniqFrom fs p k (fuel + 1) = dedupCand p k
      simp [uniqFrom, Bool.of_not_eq_true hk]

/-- The deduplicator's result never exists in the filesystem (helper shared
across claims). -/
theorem get_unique_filename_free (fs : Fs) (p : FPath) :
    fsExists fs (get_unique_filename fs p) = false := by
  by_cases hp : fsExists fs p = true
  · obtain ⟨j, h1, h2, h3, h4⟩ := uniqFrom_spec fs p (fs.length + 1) 1
      (exists_free_in_window fs p 1)
    unfold get_unique_filename
    rw [if_pos hp, h2]
    exact h3
  · have hp2 := Bool.of_not_eq_true hp
    unfold get_unique_filename
    rw [if_neg hp]
    exact hp2

/-- C7: the filename deduplicator always returns a path that does not exist
in the filesystem (which, in the model, contains every output materialized
so far in the run): the candidate itself when free, otherwise the first
free path among the stem_1, stem_2, … candidates.  It is a pure function of
the filesystem and the candidate, hence deterministic. -/
theorem c7_unique_filename (fs : Fs) (p : FPath) :
    fsExists fs (get_unique_filename fs p) = false ∧
    (fsExists fs p = false → get_unique_filename fs p = p) ∧
    (fsExists fs p = true →
      ∃ k, 1 ≤ k ∧ get_unique_filename fs p = dedupCand p k ∧
        fsExists fs (dedupCand p k) = false ∧
        ∀ i, 1 ≤ i → i < k → fsExists fs (dedupCand p i) = true) := by
  refine ⟨get_unique_filename_free fs p, ?_, ?_⟩
  · intro hfalse
    unfold get_unique_filename
    rw [hfalse]
    simp
  · intro hp
    obtain ⟨j, h1, h2, h3, h4⟩ := uniqFrom_spec fs p (fs.length + 1) 1
      (exists_free_in_window fs p 1)
    have hval : get_unique_filename fs p = dedupCand p j := by
      unfold get_unique_filename
      rw [if_pos hp]
      exact h2
    exact ⟨j, h1, hval, h3, h4⟩

/-- Witness for C7 on a directory already holding `a.jpg` and `a_1.jpg`. -/
theorem c7_witness :
    fsExists dedupFs (get_unique_filename dedupFs dedupP) = false ∧
    (fsExists dedupFs dedupP = false → get_unique_filename dedupFs dedupP = dedupP) ∧
    (fsExists dedupFs dedupP = true →
      ∃ k, 1 ≤ k ∧ get_unique_filename dedupFs dedupP = dedupCand dedupP k ∧
        fsExists dedupFs (dedupCand dedupP k) = false ∧
        ∀ i, 1 ≤ i → i < k → fsExists dedupFs (dedupCand dedupP i) = true) :=
  c7_unique_filename dedupFs dedupP

/-! ## Filesystem lemmas -/

/-- Reading back a write. -/
theorem fsGet_write_self (fs : Fs) (p : FPath) (fd : FileData) :
    fsGet (fsWrite fs p fd) p = some fd := by
  show fsGet ((p, fd) :: fsErase fs p) p = some fd
  simp [fsGet]

/-- Erasing one path leaves the others. -/
theorem fsGet_erase_ne (fs : Fs) (p q : FPath) (h : p ≠ q) :
    fsGet (fsErase fs p) q = fsGet fs q := by
  induction fs with
  | nil => rfl
  | cons x rest ih =>
    show fsGet (if x.1 = p then fsErase rest p else (x.1, x.2) :: fsErase rest p) q = _
    by_cases hx : x.1 = p
    · rw [if_pos hx]
      show fsGet (fsErase rest p) q = fsGet ((x.1, x.2) :: rest) q
      rw [ih]
      have : x.1 ≠ q := by rw [hx]; exact h
      simp only [fsGet, if_neg this]
    · rw [if_neg hx]
      show fsGet ((x.1, x.2) :: fsErase rest p) q = fsGet ((x.1, x.2) :: rest) q
      by_cases hq : x.1 = q
      · simp only [fsGet, if_pos hq]
      · simp only [fsGet, if_neg hq]
        exact ih

/-- A write at one path leaves the others. -/
theorem fsGet_write_ne (fs : Fs) (p q : FPath) (fd : FileData) (h : p ≠ q) :
    fsGet (fsWrite fs p fd) q = fsGet fs q := by
  show fsGet ((p, fd) :: fsErase fs p) q = fsGet fs q
  simp only [fsGet, if_neg h]
  exact fsGet_erase_ne fs p q h

/-- Erasure empties a path. -/
theorem fsGet_erase_self (fs : Fs) (p : FPath) : fsGet (fsErase fs p) p = none := by
  induction fs with
  | nil => rfl
  | cons x rest ih =>
    show fsGet (if x.1 = p then fsErase rest p else (x.1, x.2) :: fsErase rest p) p = none
    by_cases hx : x.1 = p
    · rw [if_pos hx]; exact ih
    · rw [if_neg hx]
      show fsGet ((x.1, x.2) :: fsErase rest p) p = none
      simp only [fsGet, if_neg hx]
      exact ih

/-- A rename of `a` to a fresh `b` leaves every third path unchanged. -/
theorem fsGet_rename_ne (fs : Fs) (a b q : FPath) (ha : a ≠ q) (hb : b ≠ q) :
    fsGet (fsRename fs a b) q = fsGet fs q := by
  unfold fsRename
  cases hg : fsGet fs a with
  | none => rfl
  | some fd =>
    rw [fsGet_write_ne _ _ _ _ hb, fsGet_erase_ne _ _ _ ha]

/-! ## The main-loop per-file lemmas -/

/-- One successful convert-and-rename iteration of the main loop equals
`procGood`. -/
theorem processFile_good (cfg : Config) (st : RunState) (p : FPath) (role : String)
    (t : Int) (loc : Option (ℚ × ℚ)) (cap : Option String) (im : ImageData)
    (hconv : cfg.convertToJpeg = true)
    (hwebp : strLower p.ext = ".webp")
    (him : openImage st.fs p = some im) :
    processFile cfg t loc cap st p role = (procGood cfg st p role t loc cap im, false) := by
  have hcv : convert_webp_to_jpg st.fs p =
      (fsWrite st.fs { p with ext := ".jpg" }
        (FileData.image { pixels := im.pixels, format := "JPEG" }),
       some { p with ext := ".jpg" }, true, []) := by
    unfold convert_webp_to_jpg
    rw [if_pos hwebp, him]
  unfold processFile
  rw [hconv]
  simp only [if_true, hcv]
  simp only [and_self, if_true]
  set cimg : ImageData := { pixels := im.pixels, format := "JPEG" } with hcimg
  set jpgPath : FPath := { dir := p.dir, stem := p.stem, ext := ".jpg" } with hjp
  set fs1 := fsWrite st.fs jpgPath (FileData.image cimg) with hfs1
  set cand : FPath :=
    (if cfg.keepOriginalFilename = true then
      { dir := outputDir, stem := fileTimeStr t ++ "_" ++ role ++ "_" ++ p.stem, ext := ".jpg" }
    else { dir := outputDir, stem := fileTimeStr t ++ "_" ++ role, ext := ".jpg" }) with hcand
  set np := get_unique_filename fs1 cand with hnp
  have hren : fsRename fs1 jpgPath np = fsWrite (fsErase fs1 jpgPath) np (FileData.image cimg) := by
    unfold fsRename
    rw [hfs1, fsGet_write_self]
  have h2 : fsGet (fsRename fs1 jpgPath np) np = some (FileData.image cimg) := by
    rw [hren, fsGet_write_self]
  have hex : updateExif (fsRename fs1 jpgPath np) np t loc cap =
      (fsWrite (fsRename fs1 jpgPath np) np (FileData.image (exifApply cimg t loc cap)), []) := by
    unfold updateExif
    rw [h2]
  have h3 : fsGet (fsWrite (fsRename fs1 jpgPath np) np
      (FileData.image (exifApply cimg t loc cap))) np =
      some (FileData.image (exifApply cimg t loc cap)) := fsGet_write_self _ _ _
  have hip : updateIptc (fsWrite (fsRename fs1 jpgPath np) np
      (FileData.image (exifApply cimg t loc cap))) np cap =
      (fsWrite (fsWrite (fsRename fs1 jpgPath np) np (FileData.image (exifApply cimg t loc cap))) np
        (FileData.image (iptcApply (exifApply cimg t loc cap) cap)), []) := by
    unfold updateIptc
    rw [h3]
  simp only [hex, hip]
  by_cases hrole : role = "primary" <;>
    simp [procGood, metaApply, hrole, hnp, hcand, hfs1, hjp, hcimg, List.append_nil]

/-- The dedup loop preserves the directory of its candidate. -/
theorem uniqFrom_dir (fs : Fs) (p : FPath) :
    ∀ (fuel k : Nat), (uniqFrom fs p k fuel).dir = p.dir := by
  intro fuel
  induction fuel with
  | zero => intro k; rfl
  | succ fuel ih =>
    intro k
    show (if fsExists fs (dedupCand p k) = true then uniqFrom fs p (k + 1) fuel
      else dedupCand p k).dir = p.dir
    by_cases h : fsExists fs (dedupCand p k) = true
    · rw [if_pos h]; exact ih (k + 1)
    · rw [if_neg h]; rfl

/-- The deduplicator preserves the directory of its candidate. -/
theorem get_unique_filename_dir (fs : Fs) (p : FPath) :
    (get_unique_filename fs p).dir = p.dir := by
  unfold get_unique_filename
  by_cases h : fsExists fs p = true
  · rw [if_pos h]; exact uniqFrom_dir fs p _ 1
  · rw [if_neg h]

/-- Two paths with different directories are different. -/
theorem fpath_ne_of_dir {a b : FPath} (h : a.dir ≠ b.dir) : a ≠ b :=
  fun he => h (congrArg FPath.dir he)

/-- Two paths with different extensions are different. -/
theorem fpath_ne_of_ext {a b : FPath} (h : a.ext ≠ b.ext) : a ≠ b :=
  fun he => h (congrArg FPath.ext he)

/-- Frame condition of the successful per-file iteration: paths outside the
output directory and without the `.jpg` extension are untouched. -/
theorem procGood_frame (cfg : Config) (st : RunState) (p : FPath) (role : String)
    (t : Int) (loc : Option (ℚ × ℚ)) (cap : Option String) (im : ImageData)
    (q : FPath) (hq1 : q.dir ≠ outputDir) (hq2 : q.ext ≠ ".jpg") :
    fsGet (procGood cfg st p role t loc cap im).fs q = fsGet st.fs q := by
  unfold procGood
  simp only
  have hnp : ∀ fsx candx, (get_unique_filename fsx candx).dir = outputDir →
      get_unique_filename fsx candx ≠ q := by
    intro fsx candx hd
    exact fun he => hq1 (by rw [← he, hd])
  set jpgPath : FPath := { p with ext := ".jpg" }
  have hjq : jpgPath ≠ q := fpath_ne_of_ext (by simpa using fun h => hq2 h.symm)
  set cand : FPath :=
    (if cfg.keepOriginalFilename = true then
      { dir := outputDir, stem := fileTimeStr t ++ "_" ++ role ++ "_" ++ p.stem, ext := ".jpg" }
    else { dir := outputDir, stem := fileTimeStr t ++ "_" ++ role, ext := ".jpg" }) with hcand
  have hcd : cand.dir = outputDir := by
    rw [hcand]; by_cases h : cfg.keepOriginalFilename = true
    · rw [if_pos h]
    · rw [if_neg h]
  have hne : get_unique_filename (fsWrite st.fs jpgPath
      (FileData.image { pixels := im.pixels, format := "JPEG" })) cand ≠ q :=
    hnp _ _ (by rw [get_unique_filename_dir]; exact hcd)
  rw [fsGet_write_ne _ _ _ _ hne, fsGet_write_ne _ _ _ _ hne,
    fsGet_rename_ne _ _ _ _ hjq hne, fsGet_write_ne _ _ _ _ hjq]

/-- A file whose conversion is skipped (non-convert mode) but which is
missing on disk makes `shutil.copy2` raise: the iteration returns the state
unchanged with the exception flag set. -/
theorem processFile_copy_missing (cfg : Config) (st : RunState) (p : FPath) (role : String)
    (t : Int) (loc : Option (ℚ × ℚ)) (cap : Option String)
    (hconv : cfg.convertToJpeg = false)
    (hmiss : fsGet st.fs p = none) :
    processFile cfg t loc cap st p role = (st, true) := by
  unfold processFile
  rw [hconv]
  simp [hmiss]

/-- The non-convert iteration on a decodable existing image: processed
increments, nothing else among the counters and the log changes, and paths
outside the output directory are untouched. -/
theorem processFile_nocvt_good (cfg : Config) (st : RunState) (p : FPath) (role : String)
    (t : Int) (loc : Option (ℚ × ℚ)) (cap : Option String) (im : ImageData)
    (hconv : cfg.convertToJpeg = false)
    (him : openImage st.fs p = some im) :
    ∃ st' : RunState, processFile cfg t loc cap st p role = (st', false) ∧
      st'.processed = st.processed + 1 ∧ st'.skipped = st.skipped ∧
      st'.log = st.log ∧
      ∀ q : FPath, q.dir ≠ outputDir → fsGet st'.fs q = fsGet st.fs q := by
  have hfd : fsGet st.fs p = some (FileData.image im) := by
    unfold openImage at him
    cases hg : fsGet st.fs p with
    | none => rw [hg] at him; exact Option.noConfusion him
    | some fd =>
      rw [hg] at him
      cases fd with
      | image im2 =>
        cases him
        rfl
      | badImage id => exact Option.noConfusion him
      | video v m => exact Option.noConfusion him
  unfold processFile
  rw [hconv]
  simp only [Bool.false_eq_true, if_false, false_and, hfd]
  set cand : FPath :=
    (if cfg.keepOriginalFilename = true then
      { dir := outputDir, stem := fileTimeStr t ++ "_" ++ role ++ "_" ++ p.stem, ext := ".webp" }
    else { dir := outputDir, stem := fileTimeStr t ++ "_" ++ role, ext := ".webp" }) with hcand
  set np := get_unique_filename st.fs cand with hnp
  have hcd : cand.dir = outputDir := by
    rw [hcand]; by_cases h : cfg.keepOriginalFilename = true
    · rw [if_pos h]
    · rw [if_neg h]
  have hnpd : np.dir = outputDir := by rw [hnp, get_unique_filename_dir]; exact hcd
  have h2 : fsGet (fsWrite st.fs np (FileData.image im)) np = some (FileData.image im) :=
    fsGet_write_self _ _ _
  have hex : updateExif (fsWrite st.fs np (FileData.image im)) np t loc cap =
      (fsWrite (fsWrite st.fs np (FileData.image im)) np
        (FileData.image (exifApply im t loc cap)), []) := by
    unfold updateExif
    rw [h2]
  have h3 := fsGet_write_self (fsWrite st.fs np (FileData.image im)) np
    (FileData.image (exifApply im t loc cap))
  have hip : updateIptc (fsWrite (fsWrite st.fs np (FileData.image im)) np
      (FileData.image (exifApply im t loc cap))) np cap =
      (fsWrite (fsWrite (fsWrite st.fs np (FileData.image im)) np
        (FileData.image (exifApply im t loc cap))) np
        (FileData.image (iptcApply (exifApply im t loc cap) cap)), []) := by
    unfold updateIptc
    rw [h3]
  simp only [hex, hip]
  refine ⟨_, rfl, ?_, ?_, ?_, ?_⟩
  · by_cases hrole : role = "primary" <;> simp [hrole]
  · by_cases hrole : role = "primary" <;> simp [hrole]
  · by_cases hrole : role = "primary" <;> simp [hrole]
  · intro q hq
    have hne : np ≠ q := fun he => hq (by rw [← he, hnpd])
    by_cases hrole : role = "primary" <;>
      simp only [hrole, if_true, if_false, Bool.false_eq_true, ite_true, ite_false,
        if_pos, reduceIte] <;>
      rw [fsGet_write_ne _ _ _ _ hne, fsGet_write_ne _ _ _ _ hne, fsGet_write_ne _ _ _ _ hne]

/-! ## C5: conversion failure handling -/

/-- The converter surfaces a decode failure as `none` with an error log and
leaves the filesystem unchanged (helper shared across claims). -/
theorem convert_fail (fs : Fs) (p : FPath)
    (hwebp : strLower p.ext = ".webp") (hfail : openImage fs p = none) :
    convert_webp_to_jpg fs p = (fs, none, false, [LogEvent.convertError p]) := by
  unfold convert_webp_to_jpg
  rw [if_pos hwebp, hfail]

/-- The per-file iteration on a failing conversion: skipped increments,
nothing else changes, and no exception escapes (helper shared across
claims). -/
theorem processFile_skip (cfg : Config) (st : RunState) (p : FPath) (role : String)
    (t : Int) (loc : Option (ℚ × ℚ)) (cap : Option String)
    (hconv : cfg.convertToJpeg = true)
    (hwebp : strLower p.ext = ".webp")
    (hfail : openImage st.fs p = none) :
    processFile cfg t loc cap st p role =
      ({ st with skipped := st.skipped + 1, log := st.log ++ [LogEvent.convertError p] },
        false) := by
  unfold processFile
  rw [hconv]
  simp [convert_fail st.fs p hwebp hfail]

/-- C5: when decoding (or re-encoding) fails during WebP-to-JPEG conversion
— the file is missing, unreadable, or not a raster image — the converter
catches the fault, logs it, and returns a failure value instead of raising;
the caller then increments the skipped counter by exactly one, performs no
further step for that file (no write, no rename, no metadata, no artifact
recording), and the iteration returns normally so the batch continues with
the next file. -/
theorem c5_conversion_failure (cfg : Config) (st : RunState) (p : FPath) (role : String)
    (t : Int) (loc : Option (ℚ × ℚ)) (cap : Option String)
    (hconv : cfg.convertToJpeg = true)
    (hwebp : strLower p.ext = ".webp")
    (hfail : openImage st.fs p = none) :
    convert_webp_to_jpg st.fs p = (st.fs, none, false, [LogEvent.convertError p]) ∧
    processFile cfg t loc cap st p role =
      ({ st with skipped := st.skipped + 1, log := st.log ++ [LogEvent.convertError p] },
        false) := by
  exact ⟨convert_fail st.fs p hwebp hfail, processFile_skip cfg st p role t loc cap hconv hwebp hfail⟩

/-- Witness for C5: a corrupt `.webp` input is skipped and the state is
otherwise untouched. -/
theorem c5_witness :
    (cfgConvertOnly.convertToJpeg = true ∧ strLower c5File.ext = ".webp" ∧
      openImage c5St.fs c5File = none) ∧
    (convert_webp_to_jpg c5St.fs c5File = (c5St.fs, none, false, [LogEvent.convertError c5File]) ∧
      processFile cfgConvertOnly 0 none none c5St c5File "secondary" =
        ({ c5St with skipped := c5St.skipped + 1, log := c5St.log ++ [LogEvent.convertError c5File] },
          false)) :=
  ⟨⟨rfl, by decide, by decide⟩,
    c5_conversion_failure cfgConvertOnly c5St c5File "secondary" 0 none none rfl
      (by decide) (by decide)⟩

/-! ## C6: transcode collaborator failure -/

/-- C6: when the external transcode collaborator fails (non-zero exit or
missing executable, both modelled by `Env.ffmpegOk = false`), the video
metadata writer logs the failure and returns failure without raising and
without writing any output; the caller then copies the original BTS video
byte-for-byte to the derived output path with no metadata written, and
increments the processed counter (not the skipped counter) by one. -/
theorem c6_ffmpeg_fallback (cfg : Config) (env : Env) (st : RunState) (e : Entry)
    (f : SrcFile) (fd : FileData)
    (henv : env.ffmpegOk = false)
    (hbts : e.btsMedia = some f)
    (hext : strLower f.ext = ".mp4")
    (hfile : fsGet st.fs (dataFile f) = some fd) :
    (∀ outPath : FPath,
      update_mp4_metadata env st.fs (dataFile f) outPath e.takenAt e.location =
        (st.fs, false, [LogEvent.mp4Error])) ∧
    processBts cfg env st e =
      { st with
        fs := fsWrite st.fs (get_unique_filename st.fs (btsCand cfg e f)) fd
        processed := st.processed + 1
        log := st.log ++ [LogEvent.mp4Error,
          LogEvent.copiedWithoutMetadata (get_unique_filename st.fs (btsCand cfg e f))] } := by
  have hm : ∀ outPath : FPath,
      update_mp4_metadata env st.fs (dataFile f) outPath e.takenAt e.location =
        (st.fs, false, [LogEvent.mp4Error]) := by
    intro outPath
    unfold update_mp4_metadata
    rw [henv]
    simp
  refine ⟨hm, ?_⟩
  unfold processBts
  rw [hbts]
  have hexists : fsExists st.fs (dataFile f) = true := by
    unfold fsExists; rw [hfile]; rfl
  simp only [hexists, hext, and_self, if_true, hm, hfile]
  simp [btsCand, dataFile, hext]

/-- Witness for C6: with the collaborator failing, the BTS video is copied
verbatim and counted as processed. -/
theorem c6_witness :
    ((Env.mk false).ffmpegOk = false ∧ c6Entry.btsMedia = some { stem := "vid", ext := ".mp4" } ∧
      strLower (SrcFile.mk "vid" ".mp4").ext = ".mp4" ∧
      fsGet c6St.fs (dataFile { stem := "vid", ext := ".mp4" }) = some (FileData.video 9 none)) ∧
    ((∀ outPath : FPath,
        update_mp4_metadata (Env.mk false) c6St.fs (dataFile { stem := "vid", ext := ".mp4" })
          outPath c6Entry.takenAt c6Entry.location = (c6St.fs, false, [LogEvent.mp4Error])) ∧
      processBts cfgConvertOnly (Env.mk false) c6St c6Entry =
        { c6St with
          fs := fsWrite c6St.fs
            (get_unique_filename c6St.fs (btsCand cfgConvertOnly c6Entry { stem := "vid", ext := ".mp4" }))
            (FileData.video 9 none)
          processed := c6St.processed + 1
          log := c6St.log ++ [LogEvent.mp4Error,
            LogEvent.copiedWithoutMetadata
              (get_unique_filename c6St.fs
                (btsCand cfgConvertOnly c6Entry { stem := "vid", ext := ".mp4" }))] }) :=
  ⟨⟨rfl, rfl, by decide, by decide⟩,
    c6_ffmpeg_fallback cfgConvertOnly (Env.mk false) c6St c6Entry
      { stem := "vid", ext := ".mp4" } (FileData.video 9 none) rfl rfl (by decide) (by decide)⟩

/-! ## C4: a record whose secondary image is missing -/

/-- C4, counterexample: with the default conversion-enabled configuration, a
record whose secondary file is missing on disk does change the skipped
counter (the missing file makes `Image.open` fail inside the converter,
which is counted as a skip), contradicting the claim that neither counter
changes. -/
theorem c4_counterexample :
    ¬ ((processEntry cfgConvertOnly { ffmpegOk := true } c4St c4Entry).skipped =
      c4St.skipped) := by
  decide

/-- C4, amended: for a record whose secondary image file is missing on disk
from both candidate input directories (primary present and decodable), the
run continues — the iteration raises nothing it does not catch.  When
conversion is enabled, the converter logs a per-file error and the skipped
counter increments by exactly one on account of the missing secondary
(processed increments only for the primary); when conversion is disabled,
the copy step's exception is caught by the record-level handler, which logs
a per-record error, and neither counter changes on account of the missing
secondary (processed still increments for the primary). -/
theorem c4_missing_secondary (cfg : Config) (env : Env) (st : RunState) (e : Entry)
    (pim : ImageData)
    (hp : fsGet st.fs (photoFile e.primary) = some (FileData.image pim))
    (hpe : strLower e.primary.ext = ".webp")
    (hs1 : fsGet st.fs (photoFile e.secondary) = none)
    (hs2 : fsGet st.fs (berealFile e.secondary) = none)
    (hse : strLower e.secondary.ext = ".webp")
    (hbts : e.btsMedia = none) :
    (cfg.convertToJpeg = true →
      (processEntry cfg env st e).skipped = st.skipped + 1 ∧
      (processEntry cfg env st e).processed = st.processed + 1 ∧
      LogEvent.convertError (photoFile e.secondary) ∈ (processEntry cfg env st e).log) ∧
    (cfg.convertToJpeg = false →
      (processEntry cfg env st e).skipped = st.skipped ∧
      (processEntry cfg env st e).processed = st.processed + 1 ∧
      LogEvent.recordError ∈ (processEntry cfg env st e).log) := by
  have hexists : fsExists st.fs (photoFile e.primary) = true := by
    unfold fsExists; rw [hp]; rfl
  have hopen : openImage st.fs (photoFile e.primary) = some pim := by
    unfold openImage; rw [hp]
  have hpe2 : strLower (photoFile e.primary).ext = ".webp" := hpe
  have hse2 : strLower (photoFile e.secondary).ext = ".webp" := hse
  have hsne : (photoFile e.secondary).ext ≠ ".jpg" := by
    intro h
    rw [show (photoFile e.secondary).ext = e.secondary.ext from rfl] at h
    rw [h] at hse
    exact absurd hse (by decide)
  constructor
  · intro hcv
    unfold processEntry
    simp only [hexists, if_true]
    rw [processFile_good cfg st (photoFile e.primary) "primary"
      e.takenAt e.location e.caption pim hcv hpe2 hopen]
    simp only [Bool.false_eq_true, if_false]
    have hfr : fsGet (procGood cfg st (photoFile e.primary) "primary"
        e.takenAt e.location e.caption pim).fs (photoFile e.secondary) = none := by
      rw [procGood_frame _ _ _ _ _ _ _ _ _ (by show photoDir ≠ outputDir; decide) hsne]
      exact hs1
    have hopen2 : openImage (procGood cfg st (photoFile e.primary) "primary"
        e.takenAt e.location e.caption pim).fs (photoFile e.secondary) = none := by
      unfold openImage; rw [hfr]
    rw [processFile_skip cfg _ (photoFile e.secondary) "secondary"
      e.takenAt e.location e.caption hcv hse2 hopen2]
    simp only [Bool.false_eq_true, if_false]
    unfold processBts
    rw [hbts]
    refine ⟨by simp [procGood], by simp [procGood], ?_⟩
    simp [procGood]
  · intro hcv
    unfold processEntry
    simp only [hexists, if_true]
    obtain ⟨st1, heq, hproc, hskip, hlog, hframe⟩ :=
      processFile_nocvt_good cfg st (photoFile e.primary) "primary"
        e.takenAt e.location e.caption pim hcv hopen
    rw [heq]
    simp only [Bool.false_eq_true, if_false]
    have hmiss2 : fsGet st1.fs (photoFile e.secondary) = none := by
      rw [hframe _ (by show photoDir ≠ outputDir; decide)]
      exact hs1
    rw [processFile_copy_missing cfg st1 (photoFile e.secondary) "secondary"
      e.takenAt e.location e.caption hcv hmiss2]
    simp only [if_true]
    refine ⟨by simp [hskip], by simp [hproc], by simp⟩

/-- Witness for C4 at a concrete record with the secondary missing from
both candidate directories. -/
theorem c4_witness :
    (fsGet c4St.fs (photoFile c4Entry.primary) =
        some (FileData.image { pixels := 4, format := "WEBP" }) ∧
      strLower c4Entry.primary.ext = ".webp" ∧
      fsGet c4St.fs (photoFile c4Entry.secondary) = none ∧
      fsGet c4St.fs (berealFile c4Entry.secondary) = none ∧
      strLower c4Entry.secondary.ext = ".webp" ∧
      c4Entry.btsMedia = none) ∧
    ((cfgConvertOnly.convertToJpeg = true →
        (processEntry cfgConvertOnly { ffmpegOk := true } c4St c4Entry).skipped =
          c4St.skipped + 1 ∧
        (processEntry cfgConvertOnly { ffmpegOk := true } c4St c4Entry).processed =
          c4St.processed + 1 ∧
        LogEvent.convertError (photoFile c4Entry.secondary) ∈
          (processEntry cfgConvertOnly { ffmpegOk := true } c4St c4Entry).log) ∧
      (cfgConvertOnly.convertToJpeg = false →
        (processEntry cfgConvertOnly { ffmpegOk := true } c4St c4Entry).skipped =
          c4St.skipped ∧
        (processEntry cfgConvertOnly { ffmpegOk := true } c4St c4Entry).processed =
          c4St.processed + 1 ∧
        LogEvent.recordError ∈
          (processEntry cfgConvertOnly { ffmpegOk := true } c4St c4Entry).log)) :=
  ⟨⟨by decide, by decide, by decide, by decide, by decide, rfl⟩,
    c4_missing_secondary cfgConvertOnly { ffmpegOk := true } c4St c4Entry
      { pixels := 4, format := "WEBP" } (by decide) (by decide) (by decide) (by decide)
      (by decide) rfl⟩

/-! ## The combine pass: per-pair lemmas -/

/-- The metadata passes preserve the bitmap. -/
theorem exifApply_pixels (im : ImageData) (t : Int) (loc : Option (ℚ × ℚ))
    (cap : Option String) : (exifApply im t loc cap).pixels = im.pixels := by
  unfold exifApply; cases loc <;> cases cap <;> rfl

/-- The IPTC pass preserves the bitmap. -/
theorem iptcApply_pixels (im : ImageData) (cap : Option String) :
    (iptcApply im cap).pixels = im.pixels := by
  unfold iptcApply; cases cap <;> rfl

/-- The stored combined image keeps its bitmap through both metadata
passes. -/
theorem metaApply_pixels (pix : Nat) (t : Int) (loc : Option (ℚ × ℚ)) (cap : Option String) :
    (metaApply pix t loc cap).pixels = pix := by
  unfold metaApply iptcApply exifApply
  cases loc <;> cases cap <;> rfl

/-- The stored combined image keeps the JPEG save format through both
metadata passes. -/
theorem metaApply_format (pix : Nat) (t : Int) (loc : Option (ℚ × ℚ)) (cap : Option String) :
    (metaApply pix t loc cap).format = "JPEG" := by
  unfold metaApply iptcApply exifApply
  cases loc <;> cases cap <;> rfl

/-- The stored combined image carries the German-local capture time. -/
theorem metaApply_dateTime (pix : Nat) (t : Int) (loc : Option (ℚ × ℚ)) (cap : Option String) :
    (metaApply pix t loc cap).dateTimeOriginal = some (exifTimeStr (utcToGermanTime t)) := by
  unfold metaApply iptcApply exifApply
  cases loc <;> cases cap <;> rfl

/-- One combine-pass iteration on two decodable inputs equals `combGood`. -/
theorem combineStep_good (cfg : Config) (st : RunState) (art : Artifact) (sPath : FPath)
    (pIm sIm : ImageData)
    (hopenP : openImage st.fs art.path = some pIm)
    (hopenS : openImage st.fs sPath = some sIm) :
    combineStep cfg st (art, sPath) = some (combGood cfg st art sPath pIm sIm) := by
  unfold combineStep
  simp only [hopenP, hopenS]
  set ts := stemTs art.path.stem with hts
  set cp := combinedPathOf ts with hcp
  set combined : ImageData :=
    { pixels := combinePixels pIm.pixels sIm.pixels, format := "JPEG" } with hcombined
  set fs1 := fsWrite st.fs cp (FileData.image combined) with hfs1
  have h1 : fsGet fs1 cp = some (FileData.image combined) := by
    rw [hfs1]; exact fsGet_write_self _ _ _
  have hex : updateExif fs1 cp art.takenAt art.location art.caption =
      (fsWrite fs1 cp (FileData.image (exifApply combined art.takenAt art.location art.caption)),
        []) := by
    unfold updateExif; rw [h1]
  have h2 := fsGet_write_self fs1 cp
    (FileData.image (exifApply combined art.takenAt art.location art.caption))
  have hip : updateIptc (fsWrite fs1 cp
      (FileData.image (exifApply combined art.takenAt art.location art.caption))) cp art.caption =
      (fsWrite (fsWrite fs1 cp
        (FileData.image (exifApply combined art.takenAt art.location art.caption))) cp
        (FileData.image (iptcApply (exifApply combined art.takenAt art.location art.caption)
          art.caption)), []) := by
    unfold updateIptc; rw [h2]
  simp only [hex, hip]
  set mim : ImageData :=
    iptcApply (exifApply combined art.takenAt art.location art.caption) art.caption with hmim
  set fs3 := fsWrite (fsWrite fs1 cp
      (FileData.image (exifApply combined art.takenAt art.location art.caption))) cp
      (FileData.image mim) with hfs3
  by_cases hcv : cfg.convertToJpeg = true
  · rw [hcv]
    simp only [if_true]
    have hopen3 : openImage fs3 cp = some mim := by
      unfold openImage; rw [hfs3, fsGet_write_self]
    have hcv2 : convert_webp_to_jpg fs3 cp =
        (fsWrite fs3 { cp with ext := ".jpg" }
          (FileData.image { pixels := mim.pixels, format := "JPEG" }),
          some { cp with ext := ".jpg" }, true, []) := by
      have hcpe : cp.ext = ".webp" := rfl
      unfold convert_webp_to_jpg
      rw [hcpe, if_pos (by decide : strLower ".webp" = ".webp"), hopen3]
    simp only [hcv2]
    set jp : FPath := { cp with ext := ".jpg" } with hjp
    set cimg : ImageData := { pixels := mim.pixels, format := "JPEG" } with hcimg
    have h4 : fsGet (fsWrite fs3 jp (FileData.image cimg)) jp = some (FileData.image cimg) :=
      fsGet_write_self _ _ _
    have hex2 : updateExif (fsWrite fs3 jp (FileData.image cimg)) jp
        art.takenAt art.location art.caption =
        (fsWrite (fsWrite fs3 jp (FileData.image cimg)) jp
          (FileData.image (exifApply cimg art.takenAt art.location art.caption)), []) := by
      unfold updateExif; rw [h4]
    have h5 := fsGet_write_self (fsWrite fs3 jp (FileData.image cimg)) jp
      (FileData.image (exifApply cimg art.takenAt art.location art.caption))
    have hip2 : updateIptc (fsWrite (fsWrite fs3 jp (FileData.image cimg)) jp
        (FileData.image (exifApply cimg art.takenAt art.location art.caption))) jp art.caption =
        (fsWrite (fsWrite (fsWrite fs3 jp (FileData.image cimg)) jp
          (FileData.image (exifApply cimg art.takenAt art.location art.caption))) jp
          (FileData.image (iptcApply (exifApply cimg art.takenAt art.location art.caption)
            art.caption)), []) := by
      unfold updateIptc; rw [h5]
    simp only [hex2, hip2]
    simp [combGood, metaApply, hcv, hts, hcp, hcombined, hfs1, hfs3, hmim, hjp, hcimg,
      iptcApply_pixels, exifApply_pixels]
  · rw [Bool.not_eq_true] at hcv
    rw [hcv]
    simp only [Bool.false_eq_true, if_false]
    simp [combGood, metaApply, hcv, hts, hcp, hcombined, hfs1, hfs3, hmim,
      iptcApply_pixels, exifApply_pixels]

/-- Frame condition of a combine-pass iteration: paths outside the combined
output directory are untouched. -/
theorem combGood_frame (cfg : Config) (st : RunState) (art : Artifact) (sPath : FPath)
    (pIm sIm : ImageData) (q : FPath) (hq : q.dir ≠ combinedDir) :
    fsGet (combGood cfg st art sPath pIm sIm).fs q = fsGet st.fs q := by
  have hcpne : combinedPathOf (stemTs art.path.stem) ≠ q :=
    fpath_ne_of_dir (show combinedDir ≠ q.dir from fun h => hq h.symm)
  have hjpne : ({ combinedPathOf (stemTs art.path.stem) with ext := ".jpg" } : FPath) ≠ q :=
    fpath_ne_of_dir (show combinedDir ≠ q.dir from fun h => hq h.symm)
  unfold combGood
  by_cases hcv : cfg.convertToJpeg = true
  · simp only [hcv, if_true]
    rw [fsGet_write_ne _ _ _ _ hjpne, fsGet_write_ne _ _ _ _ hjpne,
      fsGet_write_ne _ _ _ _ hjpne, fsGet_write_ne _ _ _ _ hcpne,
      fsGet_write_ne _ _ _ _ hcpne, fsGet_write_ne _ _ _ _ hcpne]
  · rw [Bool.not_eq_true] at hcv
    simp only [hcv, Bool.false_eq_true, if_false]
    rw [fsGet_write_ne _ _ _ _ hcpne, fsGet_write_ne _ _ _ _ hcpne,
      fsGet_write_ne _ _ _ _ hcpne]

/-- The combined `.webp`-named file after a combine-pass iteration holds the
composited bitmap with both metadata passes applied, saved as JPEG. -/
theorem combGood_lookup (cfg : Config) (st : RunState) (art : Artifact) (sPath : FPath)
    (pIm sIm : ImageData) :
    fsGet (combGood cfg st art sPath pIm sIm).fs (combinedPathOf (stemTs art.path.stem)) =
      some (FileData.image (metaApply (combinePixels pIm.pixels sIm.pixels)
        art.takenAt art.location art.caption)) := by
  have hjpne : ({ combinedPathOf (stemTs art.path.stem) with ext := ".jpg" } : FPath) ≠
      combinedPathOf (stemTs art.path.stem) :=
    fpath_ne_of_ext (show (".jpg" : String) ≠ ".webp" by decide)
  unfold combGood
  by_cases hcv : cfg.convertToJpeg = true
  · simp only [hcv, if_true]
    rw [fsGet_write_ne _ _ _ _ hjpne, fsGet_write_ne _ _ _ _ hjpne,
      fsGet_write_ne _ _ _ _ hjpne, fsGet_write_self]
  · rw [Bool.not_eq_true] at hcv
    simp only [hcv, Bool.false_eq_true, if_false]
    rw [fsGet_write_self]

/-- The ghost trace of a combine-pass iteration records exactly one save. -/
theorem combGood_combinedMade (cfg : Config) (st : RunState) (art : Artifact) (sPath : FPath)
    (pIm sIm : ImageData) :
    (combGood cfg st art sPath pIm sIm).combinedMade =
      st.combinedMade ++ [(stemTs art.path.stem, combinePixels pIm.pixels sIm.pixels)] := by
  unfold combGood
  by_cases hcv : cfg.convertToJpeg = true
  · simp [hcv]
  · rw [Bool.not_eq_true] at hcv
    simp [hcv]

/-! ## C10: combined artifacts are JPEG-encoded under a .webp name -/

/-- C10: for every configuration, a combined artifact is encoded as JPEG
(saved with the 'JPEG' format) while its filename carries the '.webp'
extension and lives in the combined output directory; when conversion is
enabled, an additional '.jpg'-named copy is derived from it and given its
own metadata pass (capture time present), while the JPEG-content
'.webp'-named file remains. -/
theorem c10_combined_jpeg_webp (cfg : Config) (st : RunState) (art : Artifact)
    (sPath : FPath) (pIm sIm : ImageData)
    (hopenP : openImage st.fs art.path = some pIm)
    (hopenS : openImage st.fs sPath = some sIm) :
    ∃ st' : RunState, combineStep cfg st (art, sPath) = some st' ∧
      (combinedPathOf (stemTs art.path.stem)).ext = ".webp" ∧
      (combinedPathOf (stemTs art.path.stem)).dir = combinedDir ∧
      fsGet st'.fs (combinedPathOf (stemTs art.path.stem)) =
        some (FileData.image (metaApply (combinePixels pIm.pixels sIm.pixels)
          art.takenAt art.location art.caption)) ∧
      (cfg.convertToJpeg = true →
        fsGet st'.fs { combinedPathOf (stemTs art.path.stem) with ext := ".jpg" } =
          some (FileData.image (metaApply (combinePixels pIm.pixels sIm.pixels)
            art.takenAt art.location art.caption))) ∧
      (metaApply (combinePixels pIm.pixels sIm.pixels)
        art.takenAt art.location art.caption).format = "JPEG" ∧
      (metaApply (combinePixels pIm.pixels sIm.pixels)
        art.takenAt art.location art.caption).dateTimeOriginal =
        some (exifTimeStr (utcToGermanTime art.takenAt)) := by
  refine ⟨combGood cfg st art sPath pIm sIm,
    combineStep_good cfg st art sPath pIm sIm hopenP hopenS, rfl, rfl,
    combGood_lookup cfg st art sPath pIm sIm, ?_,
    metaApply_format _ _ _ _, metaApply_dateTime _ _ _ _⟩
  intro hconv
  unfold combGood
  simp only [hconv, if_true]
  rw [fsGet_write_self]

/-- Witness for C10 on a concrete artifact pair. -/
theorem c10_witness :
    (openImage c10St.fs c10Art.path = some { pixels := 21, format := "JPEG" } ∧
      openImage c10St.fs c10S = some { pixels := 22, format := "JPEG" }) ∧
    (∃ st' : RunState, combineStep cfgDefault c10St (c10Art, c10S) = some st' ∧
      (combinedPathOf (stemTs c10Art.path.stem)).ext = ".webp" ∧
      (combinedPathOf (stemTs c10Art.path.stem)).dir = combinedDir ∧
      fsGet st'.fs (combinedPathOf (stemTs c10Art.path.stem)) =
        some (FileData.image (metaApply (combinePixels 21 22)
          c10Art.takenAt c10Art.location c10Art.caption)) ∧
      (cfgDefault.convertToJpeg = true →
        fsGet st'.fs { combinedPathOf (stemTs c10Art.path.stem) with ext := ".jpg" } =
          some (FileData.image (metaApply (combinePixels 21 22)
            c10Art.takenAt c10Art.location c10Art.caption))) ∧
      (metaApply (combinePixels 21 22)
        c10Art.takenAt c10Art.location c10Art.caption).format = "JPEG" ∧
      (metaApply (combinePixels 21 22)
        c10Art.takenAt c10Art.location c10Art.caption).dateTimeOriginal =
        some (exifTimeStr (utcToGermanTime c10Art.takenAt))) :=
  ⟨⟨by decide, by decide⟩,
    c10_combined_jpeg_webp cfgDefault c10St c10Art c10S
      { pixels := 21, format := "JPEG" } { pixels := 22, format := "JPEG" }
      (by decide) (by decide)⟩

/-! ## C9: combined outputs have no collision protection -/

/-- C9: the combined-artifact output path is always
`{timestamp}_combined.webp` in the combined output directory and is never
routed through the filename deduplicator; consequently two recorded
primaries whose capture timestamps render to the same stem head produce the
same combined path, and the later combined image silently overwrites the
earlier one — both composites are constructed (two ghost-trace entries) but
the file finally holds only the later pair's data. -/
theorem c9_combined_overwrite (cfg : Config) (st : RunState) (a1 : Artifact) (s1 : FPath)
    (a2 : Artifact) (s2 : FPath) (p1 q1 p2 q2 : ImageData)
    (h1 : openImage st.fs a1.path = some p1) (hq1 : openImage st.fs s1 = some q1)
    (h2 : openImage st.fs a2.path = some p2) (hq2 : openImage st.fs s2 = some q2)
    (ha2 : a2.path.dir ≠ combinedDir) (hs2 : s2.dir ≠ combinedDir)
    (hts : stemTs a2.path.stem = stemTs a1.path.stem) :
    combinedPathOf (stemTs a1.path.stem) = combinedPathOf (stemTs a2.path.stem) ∧
    ∃ stF : RunState,
      combineLoop cfg st [(a1, s1), (a2, s2)] = (stF, false) ∧
      stF.combinedMade = st.combinedMade ++
        [(stemTs a1.path.stem, combinePixels p1.pixels q1.pixels),
         (stemTs a1.path.stem, combinePixels p2.pixels q2.pixels)] ∧
      fsGet stF.fs (combinedPathOf (stemTs a1.path.stem)) =
        some (FileData.image (metaApply (combinePixels p2.pixels q2.pixels)
          a2.takenAt a2.location a2.caption)) := by
  refine ⟨by rw [hts], ?_⟩
  have hstep1 := combineStep_good cfg st a1 s1 p1 q1 h1 hq1
  set st1 := combGood cfg st a1 s1 p1 q1 with hst1
  have h2b : openImage st1.fs a2.path = some p2 := by
    unfold openImage
    rw [hst1, combGood_frame _ _ _ _ _ _ _ ha2]
    unfold openImage at h2
    exact h2
  have hq2b : openImage st1.fs s2 = some q2 := by
    unfold openImage
    rw [hst1, combGood_frame _ _ _ _ _ _ _ hs2]
    unfold openImage at hq2
    exact hq2
  have hstep2 := combineStep_good cfg st1 a2 s2 p2 q2 h2b hq2b
  refine ⟨combGood cfg st1 a2 s2 p2 q2, ?_, ?_, ?_⟩
  · show combineLoop cfg st ((a1, s1) :: [(a2, s2)]) = _
    unfold combineLoop
    rw [hstep1]
    unfold combineLoop
    rw [hstep2]
    exact rfl
  · rw [combGood_combinedMade, hst1, combGood_combinedMade, hts]
    simp
  · rw [← hts, combGood_lookup]

/-- Witness for C9: two recorded primaries whose stems share the timestamp
part T collide on the combined path and the second overwrites the first. -/
theorem c9_witness :
    (openImage c9St.fs c9A1.path = some { pixels := 31, format := "JPEG" } ∧
      openImage c9St.fs c9S1 = some { pixels := 32, format := "JPEG" } ∧
      openImage c9St.fs c9A2.path = some { pixels := 33, format := "JPEG" } ∧
      openImage c9St.fs c9S2 = some { pixels := 34, format := "JPEG" } ∧
      c9A2.path.dir ≠ combinedDir ∧ c9S2.dir ≠ combinedDir ∧
      stemTs c9A2.path.stem = stemTs c9A1.path.stem) ∧
    (combinedPathOf (stemTs c9A1.path.stem) = combinedPathOf (stemTs c9A2.path.stem) ∧
      ∃ stF : RunState,
        combineLoop cfgDefault c9St [(c9A1, c9S1), (c9A2, c9S2)] = (stF, false) ∧
        stF.combinedMade = c9St.combinedMade ++
          [(stemTs c9A1.path.stem, combinePixels 31 32),
           (stemTs c9A1.path.stem, combinePixels 33 34)] ∧
        fsGet stF.fs (combinedPathOf (stemTs c9A1.path.stem)) =
          some (FileData.image (metaApply (combinePixels 33 34)
            c9A2.takenAt c9A2.location c9A2.caption))) :=
  ⟨⟨by decide, by decide, by decide, by decide, by decide, by decide, by decide⟩,
    c9_combined_overwrite cfgDefault c9St c9A1 c9S1 c9A2 c9S2
      { pixels := 31, format := "JPEG" } { pixels := 32, format := "JPEG" }
      { pixels := 33, format := "JPEG" } { pixels := 34, format := "JPEG" }
      (by decide) (by decide) (by decide) (by decide) (by decide) (by decide) (by decide)⟩

/-! ## String and stem lemmas for the pairing claim -/

/-- Digits of the decimal expansion are decimal digit characters. -/
theorem natDecAux_mem : ∀ (fuel n : Nat) (c : Char), c ∈ natDecAux fuel n →
    ∃ k, k < 10 ∧ c = digitChar10 k := by
  intro fuel
  induction fuel with
  | zero => intro n c h; exact absurd h (List.not_mem_nil c)
  | succ fuel ih =>
    intro n c h
    by_cases h10 : n < 10
    · simp only [natDecAux, if_pos h10, List.mem_singleton] at h
      exact ⟨n, h10, h⟩
    · simp only [natDecAux, if_neg h10, List.mem_append, List.mem_singleton] at h
      rcases h with h | h
      · exact ih (n / 10) c h
      · exact ⟨n % 10, by omega, h⟩

/-- No character of a decimal rendering is an underscore. -/
theorem natDec_no_underscore (n : Nat) (c : Char) (h : c ∈ (natDec n).data) : c ≠ '_' := by
  obtain ⟨k, hk, rfl⟩ := natDecAux_mem (n + 1) n c h
  intro he
  have h1 : (digitChar10 k).toNat = 48 + k := digitChar10_toNat k hk
  rw [he] at h1
  have h2 : Char.toNat '_' = 95 := by decide
  omega

/-- No character of a zero-padded decimal field is an underscore. -/
theorem padZ_no_underscore (w n : Nat) (c : Char) (h : c ∈ (padZ w n).data) : c ≠ '_' := by
  have h2 : c ∈ List.replicate (w - (natDec n).length) '0' ++ (natDec n).data := h
  rw [List.mem_append] at h2
  rcases h2 with h2 | h2
  · rw [List.eq_of_mem_replicate h2]; decide
  · exact natDec_no_underscore n c h2

/-- No character of a filename timestamp is an underscore. -/
theorem fileTimeStr_no_underscore (t : Int) (c : Char) (h : c ∈ (fileTimeStr t).data) :
    c ≠ '_' := by
  unfold fileTimeStr at h
  simp only [String.data_append, List.mem_append] at h
  rcases h with ((((((((((h | h) | h) | h) | h) | h) | h) | h) | h) | h) | h) <;>
    first
      | exact padZ_no_underscore _ _ c h
      | (simp only [List.mem_singleton] at h; subst h; decide)

/-- Taking up to the first underscore of an underscore-free head followed by
an underscore returns the head. -/
theorem takeWhile_no_underscore (l rest : List Char) (h : ∀ c ∈ l, c ≠ '_') :
    List.takeWhile (fun c => decide (c ≠ '_')) (l ++ '_' :: rest) = l := by
  induction l with
  | nil => simp [List.takeWhile]
  | cons x xs ih =>
    have hx : x ≠ '_' := h x (List.mem_cons_self x xs)
    simp only [List.cons_append, List.takeWhile_cons]
    rw [if_pos (by simp [hx])]
    rw [ih (fun c hc => h c (List.mem_cons_of_mem x hc))]

/-- `split('_')[0]` of an underscore-free head followed by an underscore
returns the head. -/
theorem stemTs_head (ts rest : String) (h : ∀ c ∈ ts.data, c ≠ '_') :
    stemTs (ts ++ "_" ++ rest) = ts := by
  unfold stemTs
  have hdata : (ts ++ "_" ++ rest).data = ts.data ++ '_' :: rest.data := by
    rw [String.data_append, String.data_append, List.append_assoc]
    rfl
  rw [hdata, takeWhile_no_underscore ts.data rest.data h]

/-! ## More deduplicator and per-file lemmas -/

/-- The dedup loop preserves the extension of its candidate. -/
theorem uniqFrom_ext (fs : Fs) (p : FPath) :
    ∀ (fuel k : Nat), (uniqFrom fs p k fuel).ext = p.ext := by
  intro fuel
  induction fuel with
  | zero => intro k; rfl
  | succ fuel ih =>
    intro k
    show (if fsExists fs (dedupCand p k) = true then uniqFrom fs p (k + 1) fuel
      else dedupCand p k).ext = p.ext
    by_cases h : fsExists fs (dedupCand p k) = true
    · rw [if_pos h]; exact ih (k + 1)
    · rw [if_neg h]; rfl

/-- The deduplicator preserves the extension of its candidate. -/
theorem get_unique_filename_ext (fs : Fs) (p : FPath) :
    (get_unique_filename fs p).ext = p.ext := by
  unfold get_unique_filename
  by_cases h : fsExists fs p = true
  · rw [if_pos h]; exact uniqFrom_ext fs p _ 1
  · rw [if_neg h]

/-- The dedup loop only ever appends to the stem of its candidate. -/
theorem uniqFrom_stem (fs : Fs) (p : FPath) :
    ∀ (fuel k : Nat), ∃ r : String, (uniqFrom fs p k fuel).stem = p.stem ++ r := by
  intro fuel
  induction fuel with
  | zero => intro k; exact ⟨"", (String.ext (List.append_nil p.stem.data).symm : p.stem = _)⟩
  | succ fuel ih =>
    intro k
    show ∃ r, (if fsExists fs (dedupCand p k) = true then uniqFrom fs p (k + 1) fuel
      else dedupCand p k).stem = p.stem ++ r
    by_cases h : fsExists fs (dedupCand p k) = true
    · rw [if_pos h]; exact ih (k + 1)
    · rw [if_neg h]
      exact ⟨"_" ++ natDec k, String.append_assoc p.stem "_" (natDec k)⟩

/-- The deduplicator only ever appends to the stem of its candidate. -/
theorem get_unique_filename_stem (fs : Fs) (p : FPath) :
    ∃ r : String, (get_unique_filename fs p).stem = p.stem ++ r := by
  unfold get_unique_filename
  by_cases h : fsExists fs p = true
  · rw [if_pos h]; exact uniqFrom_stem fs p _ 1
  · rw [if_neg h]
    exact ⟨"", (String.ext (List.append_nil p.stem.data).symm : p.stem = _)⟩

/-- The BTS block never touches the pending-combine lists or the ghost
trace, and leaves skipped unchanged. -/
theorem processBts_preserves (cfg : Config) (env : Env) (st : RunState) (e : Entry) :
    (processBts cfg env st e).primaryImages = st.primaryImages ∧
    (processBts cfg env st e).secondaryImages = st.secondaryImages ∧
    (processBts cfg env st e).combinedMade = st.combinedMade ∧
    (processBts cfg env st e).skipped = st.skipped := by
  refine ⟨?_, ?_, ?_, ?_⟩ <;>
    (unfold processBts
     dsimp only
     repeat' split
     all_goals rfl)

/-- The BTS block touches only `.mp4` / `.tmp.mp4` paths. -/
theorem processBts_frame (cfg : Config) (env : Env) (st : RunState) (e : Entry)
    (q : FPath) (h1 : q.ext ≠ ".mp4") (h2 : q.ext ≠ ".tmp.mp4") :
    fsGet (processBts cfg env st e).fs q = fsGet st.fs q := by
  have hupd : ∀ (fs : Fs) (i o : FPath) (t : Int) (l : Option (ℚ × ℚ)),
      o ≠ q → fsGet (update_mp4_metadata env fs i o t l).1 q = fsGet fs q := by
    intro fs i o t l ho
    unfold update_mp4_metadata
    by_cases he : env.ffmpegOk = true
    · rw [if_pos he]
      cases hg : fsGet fs i with
      | none => rfl
      | some fd =>
        cases fd with
        | image im => rfl
        | badImage id => rfl
        | video v m => exact fsGet_write_ne _ _ _ _ ho
    · rw [if_neg he]
  unfold processBts
  cases hb : e.btsMedia with
  | none => rfl
  | some f =>
    dsimp only
    by_cases hc : fsExists st.fs (dataFile f) = true ∧ strLower (dataFile f).ext = ".mp4"
    · rw [if_pos hc]
      set n0 : FPath := (if cfg.keepOriginalFilename = true then
          { dir := outputDir, stem := fileTimeStr e.takenAt ++ "_bts_" ++ (dataFile f).stem,
            ext := ".mp4" }
        else { dir := outputDir, stem := fileTimeStr e.takenAt ++ "_bts", ext := ".mp4" })
        with hn0
      set bnew := get_unique_filename st.fs n0 with hbnew
      set temp : FPath := { bnew with ext := ".tmp.mp4" } with htempd
      have hbe : bnew.ext = ".mp4" := by
        rw [hbnew, get_unique_filename_ext, hn0]
        by_cases hk : cfg.keepOriginalFilename = true
        · rw [if_pos hk]
        · rw [if_neg hk]
      have hbq : bnew ≠ q := fpath_ne_of_ext (by rw [hbe]; exact fun hh => h1 hh.symm)
      have htq : temp ≠ q := fpath_ne_of_ext (fun hh => h2 hh.symm)
      by_cases hr : (update_mp4_metadata env st.fs (dataFile f) temp
          e.takenAt e.location).2.1 = true
      · rw [if_pos hr]
        rw [fsGet_rename_ne _ _ _ _ htq hbq, hupd _ _ _ _ _ htq]
      · rw [if_neg hr]
        cases hg : fsGet (update_mp4_metadata env st.fs (dataFile f) temp
            e.takenAt e.location).1 (dataFile f) with
        | none => rfl
        | some fd =>
          rw [fsGet_write_ne _ _ _ _ hbq, hupd _ _ _ _ _ htq]
    · rw [if_neg hc]

/-- The successful per-file iteration preserves existing bindings at paths
outside the source directory: the freshly deduplicated target cannot
collide with an existing file. -/
theorem procGood_preserves (cfg : Config) (st : RunState) (p : FPath) (role : String)
    (t : Int) (loc : Option (ℚ × ℚ)) (cap : Option String) (im : ImageData)
    (q : FPath) (v : FileData) (hdir : q.dir ≠ p.dir) (hget : fsGet st.fs q = some v) :
    fsGet (procGood cfg st p role t loc cap im).fs q = some v := by
  unfold procGood
  dsimp only
  set cimg : ImageData := { pixels := im.pixels, format := "JPEG" } with hcimg
  set jpgPath : FPath := { p with ext := ".jpg" } with hjp
  set fs1 := fsWrite st.fs jpgPath (FileData.image cimg) with hfs1
  set cand : FPath := (if cfg.keepOriginalFilename = true then
      { dir := outputDir, stem := fileTimeStr t ++ "_" ++ role ++ "_" ++ p.stem, ext := ".jpg" }
    else { dir := outputDir, stem := fileTimeStr t ++ "_" ++ role, ext := ".jpg" }) with hcand
  set np := get_unique_filename fs1 cand with hnp
  have hjq : jpgPath ≠ q := fun h => hdir (by rw [← h])
  have hq1 : fsGet fs1 q = some v := by
    rw [hfs1, fsGet_write_ne _ _ _ _ hjq]; exact hget
  have hfree : fsExists fs1 np = false := by rw [hnp]; exact get_unique_filename_free fs1 cand
  have hnq : np ≠ q := by
    intro h
    rw [h] at hfree
    unfold fsExists at hfree
    rw [hq1] at hfree
    exact Bool.noConfusion hfree
  have hren : fsRename fs1 jpgPath np = fsWrite (fsErase fs1 jpgPath) np (FileData.image cimg) := by
    unfold fsRename
    rw [hfs1, fsGet_write_self]
  rw [fsGet_write_ne _ _ _ _ hnq, fsGet_write_ne _ _ _ _ hnq, hren,
    fsGet_write_ne _ _ _ _ hnq, fsGet_erase_ne _ _ _ hjq]
  exact hq1

/-- Field values of the successful per-file iteration, expressed through the
chosen output path. -/
theorem procGood_fields (cfg : Config) (st : RunState) (p : FPath) (role : String)
    (t : Int) (loc : Option (ℚ × ℚ)) (cap : Option String) (im : ImageData) :
    (procGood cfg st p role t loc cap im).primaryImages = st.primaryImages ++
      (if role = "primary" then
        [{ path := procGoodPath cfg st p role t im, takenAt := t, location := loc,
           caption := cap }]
      else []) ∧
    (procGood cfg st p role t loc cap im).secondaryImages = st.secondaryImages ++
      (if role = "primary" then [] else [procGoodPath cfg st p role t im]) ∧
    (procGood cfg st p role t loc cap im).combinedMade = st.combinedMade ∧
    (procGood cfg st p role t loc cap im).skipped = st.skipped ∧
    (procGood cfg st p role t loc cap im).processed = st.processed + 1 := by
  refine ⟨?_, ?_, ?_, ?_, ?_⟩ <;> simp [procGood, procGoodPath]

/-- The stored contents at the chosen output path after a successful
iteration. -/
theorem procGood_lookup_np (cfg : Config) (st : RunState) (p : FPath) (role : String)
    (t : Int) (loc : Option (ℚ × ℚ)) (cap : Option String) (im : ImageData) :
    fsGet (procGood cfg st p role t loc cap im).fs (procGoodPath cfg st p role t im) =
      some (FileData.image (metaApply im.pixels t loc cap)) := by
  unfold procGood procGoodPath
  dsimp only
  rw [fsGet_write_self]

/-- The chosen output path lives in the output directory. -/
theorem procGoodPath_dir (cfg : Config) (st : RunState) (p : FPath) (role : String)
    (t : Int) (im : ImageData) : (procGoodPath cfg st p role t im).dir = outputDir := by
  unfold procGoodPath
  dsimp only
  rw [get_unique_filename_dir]
  by_cases hk : cfg.keepOriginalFilename = true
  · rw [if_pos hk]
  · rw [if_neg hk]

/-- The chosen output path carries the `.jpg` extension. -/
theorem procGoodPath_ext (cfg : Config) (st : RunState) (p : FPath) (role : String)
    (t : Int) (im : ImageData) : (procGoodPath cfg st p role t im).ext = ".jpg" := by
  unfold procGoodPath
  dsimp only
  rw [get_unique_filename_ext]
  by_cases hk : cfg.keepOriginalFilename = true
  · rw [if_pos hk]
  · rw [if_neg hk]

/-- The chosen output path's stem extends `{timestamp}_{role}`. -/
theorem procGoodPath_stem (cfg : Config) (st : RunState) (p : FPath) (role : String)
    (t : Int) (im : ImageData) :
    ∃ r : String, (procGoodPath cfg st p role t im).stem =
      fileTimeStr t ++ "_" ++ role ++ r := by
  unfold procGoodPath
  dsimp only
  by_cases hk : cfg.keepOriginalFilename = true
  · rw [if_pos hk]
    obtain ⟨r2, hr2⟩ := get_unique_filename_stem
      (fsWrite st.fs { p with ext := ".jpg" }
        (FileData.image { pixels := im.pixels, format := "JPEG" }))
      { dir := outputDir, stem := fileTimeStr t ++ "_" ++ role ++ "_" ++ p.stem, ext := ".jpg" }
    refine ⟨"_" ++ (p.stem ++ r2), ?_⟩
    rw [hr2]
    show fileTimeStr t ++ "_" ++ role ++ "_" ++ p.stem ++ r2 = _
    rw [String.append_assoc (fileTimeStr t ++ "_" ++ role ++ "_") p.stem r2,
      String.append_assoc (fileTimeStr t ++ "_" ++ role) "_" (p.stem ++ r2)]
  · rw [if_neg hk]
    obtain ⟨r2, hr2⟩ := get_unique_filename_stem
      (fsWrite st.fs { p with ext := ".jpg" }
        (FileData.image { pixels := im.pixels, format := "JPEG" }))
      { dir := outputDir, stem := fileTimeStr t ++ "_" ++ role, ext := ".jpg" }
    exact ⟨r2, hr2⟩

/-- The stem head of the chosen output path is the filename timestamp. -/
theorem procGoodPath_stemTs (cfg : Config) (st : RunState) (p : FPath) (role : String)
    (t : Int) (im : ImageData) :
    stemTs (procGoodPath cfg st p role t im).stem = fileTimeStr t := by
  obtain ⟨r, hr⟩ := procGoodPath_stem cfg st p role t im
  rw [hr, String.append_assoc (fileTimeStr t ++ "_") role r,
    String.append_assoc (fileTimeStr t) "_" (role ++ r)]
  rw [show fileTimeStr t ++ ("_" ++ (role ++ r)) = fileTimeStr t ++ "_" ++ (role ++ r) from
    (String.append_assoc _ _ _).symm]
  exact stemTs_head (fileTimeStr t) (role ++ r) (fileTimeStr_no_underscore t)

theorem processEntry_good (cfg : Config) (env : Env) (st : RunState) (e : Entry)
    (hconv : cfg.convertToJpeg = true)
    (hgood : GoodEntry st.fs e) :
    ∃ (pp sp : FPath),
      (processEntry cfg env st e).primaryImages = st.primaryImages ++
        [{ path := pp, takenAt := e.takenAt, location := e.location, caption := e.caption }] ∧
      (processEntry cfg env st e).secondaryImages = st.secondaryImages ++ [sp] ∧
      (processEntry cfg env st e).combinedMade = st.combinedMade ∧
      pp.dir = outputDir ∧ sp.dir = outputDir ∧
      pp.ext = ".jpg" ∧ sp.ext = ".jpg" ∧
      (∃ r, pp.stem = fileTimeStr e.takenAt ++ "_" ++ "primary" ++ r) ∧
      (∃ r, sp.stem = fileTimeStr e.takenAt ++ "_" ++ "secondary" ++ r) ∧
      stemTs pp.stem = fileTimeStr e.takenAt ∧
      stemTs sp.stem = fileTimeStr e.takenAt ∧
      (∃ imp : ImageData, fsGet (processEntry cfg env st e).fs pp = some (FileData.image imp) ∧
        imp.pixels = pixAt st.fs (photoFile e.primary)) ∧
      (∃ ims : ImageData, fsGet (processEntry cfg env st e).fs sp = some (FileData.image ims) ∧
        ims.pixels = pixAt st.fs (photoFile e.secondary)) ∧
      (∀ q : FPath, q.dir = photoDir → q.ext = ".webp" →
        fsGet (processEntry cfg env st e).fs q = fsGet st.fs q) ∧
      (∀ (q : FPath) (v : FileData), q.dir = outputDir → q.ext = ".jpg" →
        fsGet st.fs q = some v → fsGet (processEntry cfg env st e).fs q = some v) := by
  obtain ⟨hpe, hse, ⟨pim, hp⟩, ⟨sim, hs⟩⟩ := hgood
  have hexists : fsExists st.fs (photoFile e.primary) = true := by
    unfold fsExists; rw [hp]; rfl
  have hopenP : openImage st.fs (photoFile e.primary) = some pim := by
    unfold openImage; rw [hp]
  have hwebpP : strLower (photoFile e.primary).ext = ".webp" := by
    show strLower e.primary.ext = ".webp"
    rw [hpe]; decide
  have hwebpS : strLower (photoFile e.secondary).ext = ".webp" := by
    show strLower e.secondary.ext = ".webp"
    rw [hse]; decide
  have hsjpg : (photoFile e.secondary).ext ≠ ".jpg" := by
    show e.secondary.ext ≠ ".jpg"
    rw [hse]; decide
  have hpne : photoDir ≠ outputDir := by decide
  -- the primary iteration
  set st1 := procGood cfg st (photoFile e.primary) "primary" e.takenAt e.location e.caption pim
    with hst1
  have hstep1 := processFile_good cfg st (photoFile e.primary) "primary"
    e.takenAt e.location e.caption pim hconv hwebpP hopenP
  -- the secondary iteration: the source file is untouched by the primary one
  have hsGet1 : fsGet st1.fs (photoFile e.secondary) = some (FileData.image sim) := by
    rw [hst1, procGood_frame _ _ _ _ _ _ _ _ _ hpne hsjpg]
    exact hs
  have hopenS : openImage st1.fs (photoFile e.secondary) = some sim := by
    unfold openImage; rw [hsGet1]
  set st2 := procGood cfg st1 (photoFile e.secondary) "secondary" e.takenAt e.location
    e.caption sim with hst2
  have hstep2 := processFile_good cfg st1 (photoFile e.secondary) "secondary"
    e.takenAt e.location e.caption sim hconv hwebpS hopenS
  have hrun : processEntry cfg env st e = processBts cfg env st2 e := by
    unfold processEntry
    simp only [hexists, if_true, hstep1, Bool.false_eq_true, if_false, hstep2, ← hst1, ← hst2]
  set pp := procGoodPath cfg st (photoFile e.primary) "primary" e.takenAt pim with hppd
  set sp := procGoodPath cfg st1 (photoFile e.secondary) "secondary" e.takenAt sim with hspd
  have hbp := processBts_preserves cfg env st2 e
  have hf1 := procGood_fields cfg st (photoFile e.primary) "primary"
    e.takenAt e.location e.caption pim
  have hf2 := procGood_fields cfg st1 (photoFile e.secondary) "secondary"
    e.takenAt e.location e.caption sim
  refine ⟨pp, sp, ?_, ?_, ?_, procGoodPath_dir _ _ _ _ _ _, procGoodPath_dir _ _ _ _ _ _,
    procGoodPath_ext _ _ _ _ _ _, procGoodPath_ext _ _ _ _ _ _,
    procGoodPath_stem _ _ _ _ _ _, procGoodPath_stem _ _ _ _ _ _,
    procGoodPath_stemTs _ _ _ _ _ _, procGoodPath_stemTs _ _ _ _ _ _, ?_, ?_, ?_, ?_⟩
  · rw [hrun, hbp.1, hst2]
    rw [hf2.1]
    simp only [if_neg (by decide : ¬ ("secondary" = "primary"))]
    rw [hst1, hf1.1]
    simp
  · rw [hrun, hbp.2.1, hst2, hf2.2.1]
    simp only [if_neg (by decide : ¬ ("secondary" = "primary"))]
    rw [hst1, hf1.2.1]
    simp [hspd]
  · rw [hrun, hbp.2.2.1, hst2, hf2.2.2.1, hst1, hf1.2.2.1]
  · -- contents at pp survive the secondary iteration and the BTS block
    refine ⟨metaApply pim.pixels e.takenAt e.location e.caption, ?_, ?_⟩
    · rw [hrun, processBts_frame cfg env st2 e pp
        (by rw [hppd, procGoodPath_ext]; decide) (by rw [hppd, procGoodPath_ext]; decide)]
      rw [hst2, procGood_preserves cfg st1 (photoFile e.secondary) "secondary"
        e.takenAt e.location e.caption sim pp
        (FileData.image (metaApply pim.pixels e.takenAt e.location e.caption))
        (by rw [hppd, procGoodPath_dir]; show outputDir ≠ photoDir; decide) ?hget]
      case hget =>
        rw [hst1, hppd]
        exact procGood_lookup_np cfg st (photoFile e.primary) "primary"
          e.takenAt e.location e.caption pim
    · unfold pixAt
      rw [hp, metaApply_pixels]
  · refine ⟨metaApply sim.pixels e.takenAt e.location e.caption, ?_, ?_⟩
    · rw [hrun, processBts_frame cfg env st2 e sp
        (by rw [hspd, procGoodPath_ext]; decide) (by rw [hspd, procGoodPath_ext]; decide)]
      rw [hst2, hspd]
      exact procGood_lookup_np cfg st1 (photoFile e.secondary) "secondary"
        e.takenAt e.location e.caption sim
    · unfold pixAt
      rw [hs, metaApply_pixels]
  · intro q hqd hqe
    rw [hrun, processBts_frame cfg env st2 e q (by rw [hqe]; decide) (by rw [hqe]; decide)]
    rw [hst2, procGood_frame _ _ _ _ _ _ _ _ _ (by rw [hqd]; exact hpne) (by rw [hqe]; decide)]
    rw [hst1, procGood_frame _ _ _ _ _ _ _ _ _ (by rw [hqd]; exact hpne) (by rw [hqe]; decide)]
  · intro q v hqd hqe hqget
    rw [hrun, processBts_frame cfg env st2 e q (by rw [hqe]; decide) (by rw [hqe]; decide)]
    rw [hst2]
    refine procGood_preserves cfg st1 (photoFile e.secondary) "secondary"
      e.takenAt e.location e.caption sim q v
      (by rw [hqd]; show outputDir ≠ photoDir; decide) ?_
    rw [hst1]
    exact procGood_preserves cfg st (photoFile e.primary) "primary"
      e.takenAt e.location e.caption pim q v
      (by rw [hqd]; show outputDir ≠ photoDir; decide) hqget

/-- The whole main pass on a manifest of good records: one primary artifact
and one secondary path per record, in manifest order, each carrying the
record's metadata, a `{timestamp}_{role}` stem, and an image whose bitmap
comes from the record's own source file; `combinedMade` untouched and frame
conditions on the filesystem. -/
theorem runEntries_good (cfg : Config) (env : Env) (fs0 : Fs)
    (hconv : cfg.convertToJpeg = true) :
    ∀ (es : List Entry) (st : RunState),
    (∀ e ∈ es, GoodEntry fs0 e) →
    (∀ e ∈ es, fsGet st.fs (photoFile e.primary) = fsGet fs0 (photoFile e.primary) ∧
      fsGet st.fs (photoFile e.secondary) = fsGet fs0 (photoFile e.secondary)) →
    ∃ (arts : List Artifact) (sps : List FPath),
      (runEntries cfg env st es).primaryImages = st.primaryImages ++ arts ∧
      (runEntries cfg env st es).secondaryImages = st.secondaryImages ++ sps ∧
      (runEntries cfg env st es).combinedMade = st.combinedMade ∧
      List.Forall₂ (fun (a : Artifact) (e : Entry) =>
        a.takenAt = e.takenAt ∧ a.location = e.location ∧ a.caption = e.caption ∧
        a.path.dir = outputDir ∧ a.path.ext = ".jpg" ∧
        stemTs a.path.stem = fileTimeStr e.takenAt ∧
        (∃ r, a.path.stem = fileTimeStr e.takenAt ++ "_" ++ "primary" ++ r) ∧
        ∃ im : ImageData,
          fsGet (runEntries cfg env st es).fs a.path = some (FileData.image im) ∧
          im.pixels = pixAt fs0 (photoFile e.primary)) arts es ∧
      List.Forall₂ (fun (sp : FPath) (e : Entry) =>
        sp.dir = outputDir ∧ sp.ext = ".jpg" ∧
        stemTs sp.stem = fileTimeStr e.takenAt ∧
        (∃ r, sp.stem = fileTimeStr e.takenAt ++ "_" ++ "secondary" ++ r) ∧
        ∃ im : ImageData,
          fsGet (runEntries cfg env st es).fs sp = some (FileData.image im) ∧
          im.pixels = pixAt fs0 (photoFile e.secondary)) sps es ∧
      (∀ q : FPath, q.dir = photoDir → q.ext = ".webp" →
        fsGet (runEntries cfg env st es).fs q = fsGet st.fs q) ∧
      (∀ (q : FPath) (v : FileData), q.dir = outputDir → q.ext = ".jpg" →
        fsGet st.fs q = some v → fsGet (runEntries cfg env st es).fs q = some v)
  | [], st, _, _ => by
    refine ⟨[], [], by simp [runEntries], by simp [runEntries], rfl,
      List.Forall₂.nil, List.Forall₂.nil, fun q _ _ => rfl, fun q v _ _ h => h⟩
  | e :: es, st, hgood, hfr => by
    have hge : GoodEntry st.fs e := by
      obtain ⟨h1, h2, ⟨pim, hp⟩, ⟨sim, hs⟩⟩ := hgood e (List.mem_cons_self e es)
      exact ⟨h1, h2, ⟨pim, by rw [(hfr e (List.mem_cons_self e es)).1]; exact hp⟩,
        ⟨sim, by rw [(hfr e (List.mem_cons_self e es)).2]; exact hs⟩⟩
    obtain ⟨pp, sp, hpImg, hsImg, hcomb, hppDir, hspDir, hppExt, hspExt, hppStem, hspStem,
      hppTs, hspTs, ⟨pim, hppGet, hppPix⟩, ⟨sim, hspGet, hspPix⟩, hframe, hpres⟩ :=
      processEntry_good cfg env st e hconv hge
    set st1 := processEntry cfg env st e with hst1
    have hrw : runEntries cfg env st (e :: es) = runEntries cfg env st1 es := rfl
    have hfr1 : ∀ e' ∈ es,
        fsGet st1.fs (photoFile e'.primary) = fsGet fs0 (photoFile e'.primary) ∧
        fsGet st1.fs (photoFile e'.secondary) = fsGet fs0 (photoFile e'.secondary) := by
      intro e' he'
      obtain ⟨h1, h2, _, _⟩ := hgood e' (List.mem_cons_of_mem e he')
      constructor
      · rw [hframe (photoFile e'.primary) rfl h1]
        exact (hfr e' (List.mem_cons_of_mem e he')).1
      · rw [hframe (photoFile e'.secondary) rfl h2]
        exact (hfr e' (List.mem_cons_of_mem e he')).2
    obtain ⟨arts, sps, ihP, ihS, ihC, ihFp, ihFs, ihFrame, ihPres⟩ :=
      runEntries_good cfg env fs0 hconv es st1
        (fun e' he' => hgood e' (List.mem_cons_of_mem e he')) hfr1
    refine ⟨({ path := pp
               takenAt := e.takenAt
               location := e.location
               caption := e.caption } : Artifact) :: arts, sp :: sps, ?_, ?_, ?_, ?_, ?_, ?_, ?_⟩
    · rw [hrw, ihP, hpImg]
      simp
    · rw [hrw, ihS, hsImg]
      simp
    · rw [hrw, ihC, hcomb]
    · refine List.Forall₂.cons ⟨rfl, rfl, rfl, hppDir, hppExt, hppTs, hppStem, ?_⟩ ihFp
      refine ⟨pim, ?_, ?_⟩
      · rw [hrw]
        exact ihPres pp (FileData.image pim) hppDir hppExt hppGet
      · rw [hppPix]
        show pixAt st.fs (photoFile e.primary) = pixAt fs0 (photoFile e.primary)
        unfold pixAt
        rw [(hfr e (List.mem_cons_self e es)).1]
    · refine List.Forall₂.cons ⟨hspDir, hspExt, hspTs, hspStem, ?_⟩ ihFs
      refine ⟨sim, ?_, ?_⟩
      · rw [hrw]
        exact ihPres sp (FileData.image sim) hspDir hspExt hspGet
      · rw [hspPix]
        show pixAt st.fs (photoFile e.secondary) = pixAt fs0 (photoFile e.secondary)
        unfold pixAt
        rw [(hfr e (List.mem_cons_self e es)).2]
    · intro q hqd hqe
      rw [hrw, ihFrame q hqd hqe]
      exact hframe q hqd hqe
    · intro q v hqd hqe hqget
      rw [hrw]
      exact ihPres q v hqd hqe (hpres q v hqd hqe hqget)

/-- The combine pass on pairs whose two images are present (in outputDir,
away from the combined directory it writes to): no abort, and the ghost
trace appends exactly the positional composites. -/
theorem combineLoop_good (cfg : Config) (fs0 : Fs) :
    ∀ (prs : List (Artifact × FPath)) (st : RunState),
    (∀ pr ∈ prs, pr.1.path.dir = outputDir ∧ pr.2.dir = outputDir ∧
      fsGet st.fs pr.1.path = fsGet fs0 pr.1.path ∧
      fsGet st.fs pr.2 = fsGet fs0 pr.2 ∧
      (∃ im, fsGet fs0 pr.1.path = some (FileData.image im)) ∧
      (∃ im, fsGet fs0 pr.2 = some (FileData.image im))) →
    (combineLoop cfg st prs).2 = false ∧
    (combineLoop cfg st prs).1.combinedMade = st.combinedMade ++
      prs.map (fun pr => (stemTs pr.1.path.stem,
        combinePixels (pixAt fs0 pr.1.path) (pixAt fs0 pr.2)))
  | [], st, _ => ⟨rfl, by simp [combineLoop]⟩
  | pr :: rest, st, h => by
    obtain ⟨hd1, hd2, hf1, hf2, ⟨pIm, hp0⟩, ⟨sIm, hs0⟩⟩ := h pr (List.mem_cons_self pr rest)
    have hopenP : openImage st.fs pr.1.path = some pIm := by
      unfold openImage; rw [hf1, hp0]
    have hopenS : openImage st.fs pr.2 = some sIm := by
      unfold openImage; rw [hf2, hs0]
    have hstep : combineStep cfg st pr = some (combGood cfg st pr.1 pr.2 pIm sIm) := by
      rw [show pr = (pr.1, pr.2) from rfl] at hopenP hopenS ⊢
      exact combineStep_good cfg st pr.1 pr.2 pIm sIm hopenP hopenS
    set st1 := combGood cfg st pr.1 pr.2 pIm sIm with hst1
    have hloop : combineLoop cfg st (pr :: rest) = combineLoop cfg st1 rest := by
      show (match combineStep cfg st pr with
        | some s => combineLoop cfg s rest
        | none => (st, true)) = combineLoop cfg st1 rest
      rw [hstep]
    have hrest : ∀ p ∈ rest, p.1.path.dir = outputDir ∧ p.2.dir = outputDir ∧
        fsGet st1.fs p.1.path = fsGet fs0 p.1.path ∧
        fsGet st1.fs p.2 = fsGet fs0 p.2 ∧
        (∃ im, fsGet fs0 p.1.path = some (FileData.image im)) ∧
        (∃ im, fsGet fs0 p.2 = some (FileData.image im)) := by
      intro p hp
      obtain ⟨g1, g2, g3, g4, g5, g6⟩ := h p (List.mem_cons_of_mem pr hp)
      refine ⟨g1, g2, ?_, ?_, g5, g6⟩
      · rw [hst1, combGood_frame _ _ _ _ _ _ _ (by rw [g1]; decide)]
        exact g3
      · rw [hst1, combGood_frame _ _ _ _ _ _ _ (by rw [g2]; decide)]
        exact g4
    obtain ⟨ih1, ih2⟩ := combineLoop_good cfg fs0 rest st1 hrest
    refine ⟨by rw [hloop]; exact ih1, ?_⟩
    rw [hloop, ih2, hst1, combGood_combinedMade]
    have hpix1 : pIm.pixels = pixAt fs0 pr.1.path := by
      unfold pixAt; rw [hp0]
    have hpix2 : sIm.pixels = pixAt fs0 pr.2 := by
      unfold pixAt; rw [hs0]
    rw [hpix1, hpix2]
    simp

/-- Pointwise-related lists zip into a list related to the common right
list (helper for the combine-pass pairing argument). -/
theorem forall2_zip_of_forall2 {α β γ : Type} {R : α → γ → Prop} {S : β → γ → Prop} :
    ∀ {l1 : List α} {l2 : List β} {l3 : List γ},
    List.Forall₂ R l1 l3 → List.Forall₂ S l2 l3 →
    List.Forall₂ (fun (p : α × β) (c : γ) => R p.1 c ∧ S p.2 c) (l1.zip l2) l3
  | _, _, _, List.Forall₂.nil, List.Forall₂.nil => List.Forall₂.nil
  | _, _, _, List.Forall₂.cons h1 t1, List.Forall₂.cons h2 t2 =>
    List.Forall₂.cons ⟨h1, h2⟩ (forall2_zip_of_forall2 t1 t2)

/-- A member of the left list of a `Forall₂` has a related partner. -/
theorem forall2_mem_left {α β : Type} {R : α → β → Prop} :
    ∀ {l1 : List α} {l2 : List β}, List.Forall₂ R l1 l2 → ∀ a ∈ l1, ∃ b, R a b
  | _, _, List.Forall₂.nil, a, ha => absurd ha (List.not_mem_nil a)
  | _, _, List.Forall₂.cons h t, a, ha => by
    rcases List.mem_cons.mp ha with h1 | h2
    · exact ⟨_, h1 ▸ h⟩
    · exact forall2_mem_left t a h2

/-- Maps of pointwise-related lists agree when the functions agree on
related elements. -/
theorem map_eq_of_forall2 {α β γ : Type} {R : α → β → Prop} (f : α → γ) (g : β → γ)
    (hfg : ∀ a b, R a b → f a = g b) :
    ∀ {l1 : List α} {l2 : List β}, List.Forall₂ R l1 l2 → l1.map f = l2.map g
  | _, _, List.Forall₂.nil => rfl
  | _, _, List.Forall₂.cons h t => by
    simp only [List.map_cons, hfg _ _ h, map_eq_of_forall2 f g hfg t]

/-- C8 (amended): on a fresh run with conversion and combining enabled whose
records are all good (both files present and decodable `.webp`s), the
combine pass's positional zip does reproduce the manifest pairing: each
combined image composites the primary and secondary bitmaps of the same
record, in manifest order, and the zipped path pair of the Nth record
shares the record's timestamp prefix with its role suffixes. -/
theorem c8_amended (cfg : Config) (env : Env) (st : RunState) (es : List Entry)
    (hconv : cfg.convertToJpeg = true) (hcmb : cfg.createCombinedImages = true)
    (hP : st.primaryImages = []) (hS : st.secondaryImages = [])
    (hC : st.combinedMade = [])
    (hgood : ∀ e ∈ es, GoodEntry st.fs e) :
    (runAll cfg env st es).combinedMade = es.map (fun e =>
      (fileTimeStr e.takenAt,
        combinePixels (pixAt st.fs (photoFile e.primary))
          (pixAt st.fs (photoFile e.secondary)))) ∧
    List.Forall₂ (fun (pr : Artifact × FPath) (e : Entry) =>
      stemTs pr.1.path.stem = fileTimeStr e.takenAt ∧
      stemTs pr.2.stem = fileTimeStr e.takenAt ∧
      pr.1.takenAt = e.takenAt ∧ pr.1.location = e.location ∧ pr.1.caption = e.caption)
      ((runEntries cfg env st es).primaryImages.zip
        (runEntries cfg env st es).secondaryImages) es := by
  obtain ⟨arts, sps, hP1, hS1, hC1, hFp, hFs, hFrame, hPres⟩ :=
    runEntries_good cfg env st.fs hconv es st hgood (fun e _ => ⟨rfl, rfl⟩)
  rw [hP, List.nil_append] at hP1
  rw [hS, List.nil_append] at hS1
  rw [hC] at hC1
  set st1 := runEntries cfg env st es with hst1
  have hzip := forall2_zip_of_forall2 hFp hFs
  constructor
  · have hrun : runAll cfg env st es =
        (combineLoop cfg st1 (st1.primaryImages.zip st1.secondaryImages)).1 := by
      unfold runAll
      rw [if_pos hcmb]
    rw [hrun, hP1, hS1]
    have hloop := combineLoop_good cfg st1.fs (arts.zip sps) st1 ?hyp
    case hyp =>
      intro pr hpr
      obtain ⟨e, hRp, hRs⟩ := forall2_mem_left hzip pr hpr
      obtain ⟨im1, hg1, _⟩ := hRp.2.2.2.2.2.2.2
      obtain ⟨im2, hg2, _⟩ := hRs.2.2.2.2
      exact ⟨hRp.2.2.2.1, hRs.1, rfl, rfl, ⟨im1, hg1⟩, ⟨im2, hg2⟩⟩
    rw [hloop.2, hC1, List.nil_append]
    refine map_eq_of_forall2 _ _ ?_ hzip
    intro pr e hpr
    obtain ⟨hRp, hRs⟩ := hpr
    obtain ⟨im1, hg1, hpix1⟩ := hRp.2.2.2.2.2.2.2
    obtain ⟨im2, hg2, hpix2⟩ := hRs.2.2.2.2
    have h1 : pixAt st1.fs pr.1.path = pixAt st.fs (photoFile e.primary) := by
      unfold pixAt
      rw [hg1]
      exact hpix1
    have h2 : pixAt st1.fs pr.2 = pixAt st.fs (photoFile e.secondary) := by
      unfold pixAt
      rw [hg2]
      exact hpix2
    rw [h1, h2, hRp.2.2.2.2.2.1]
  · rw [hP1, hS1]
    refine List.Forall₂.imp ?_ hzip
    intro pr e h
    exact ⟨h.1.2.2.2.2.2.1, h.2.2.2.1, h.1.1, h.1.2.1, h.1.2.2.1⟩

/-- C8 counterexample: with record 1's primary undecodable (conversion
skips just that file), the zip of one recorded primary with two recorded
secondaries pairs record 2's primary with record 1's secondary: the single
combined image composites bitmaps of different manifest records (5 from
record 2's primary, 3 from record 1's secondary — not record 2's own pair
(5,7)), and the paired filenames carry different timestamp prefixes. -/
theorem c8_counterexample :
    c8Run.combinedMade = [(fileTimeStr c8t2, combinePixels 5 3)] ∧
    combinePixels 5 3 ≠ combinePixels 5 7 ∧
    c8Main.primaryImages.map (fun a => stemTs a.path.stem) = [fileTimeStr c8t2] ∧
    c8Main.secondaryImages.map (fun p => stemTs p.stem) =
      [fileTimeStr parisInstant, fileTimeStr c8t2] ∧
    fileTimeStr parisInstant ≠ fileTimeStr c8t2 := by
  decide

/-- C8 witness: the amended pairing theorem applied to the concrete
one-record Paris scenario under the default settings. -/
theorem c8_witness :
    (cfgDefault.convertToJpeg = true ∧ cfgDefault.createCombinedImages = true ∧
     (initState parisFs).primaryImages = [] ∧ (initState parisFs).secondaryImages = [] ∧
     (initState parisFs).combinedMade = [] ∧
     (∀ e ∈ [parisEntry], GoodEntry (initState parisFs).fs e)) ∧
    ((runAll cfgDefault { ffmpegOk := true } (initState parisFs) [parisEntry]).combinedMade =
      [parisEntry].map (fun e =>
        (fileTimeStr e.takenAt,
          combinePixels (pixAt (initState parisFs).fs (photoFile e.primary))
            (pixAt (initState parisFs).fs (photoFile e.secondary)))) ∧
     List.Forall₂ (fun (pr : Artifact × FPath) (e : Entry) =>
       stemTs pr.1.path.stem = fileTimeStr e.takenAt ∧
       stemTs pr.2.stem = fileTimeStr e.takenAt ∧
       pr.1.takenAt = e.takenAt ∧ pr.1.location = e.location ∧ pr.1.caption = e.caption)
       ((runEntries cfgDefault { ffmpegOk := true }
           (initState parisFs) [parisEntry]).primaryImages.zip
         (runEntries cfgDefault { ffmpegOk := true }
           (initState parisFs) [parisEntry]).secondaryImages)
       [parisEntry]) := by
  have hgood : ∀ e ∈ [parisEntry], GoodEntry (initState parisFs).fs e := by
    intro e he
    rw [List.mem_singleton] at he
    subst he
    exact ⟨rfl, rfl, ⟨{ pixels := 0, format := "WEBP" }, rfl⟩,
      ⟨{ pixels := 1, format := "WEBP" }, rfl⟩⟩
  exact ⟨⟨rfl, rfl, rfl, rfl, rfl, hgood⟩,
    c8_amended cfgDefault { ffmpegOk := true } (initState parisFs) [parisEntry]
      rfl rfl rfl rfl rfl hgood⟩
